import Mathlib

/-!
Verification of the zweg specification against a shallow embedding of the
program (a ZweiteGPS-JSON to GPX converter written in Go).

Modelling conventions, used throughout:

* Go `float64` values are modelled as exact rationals (`ℚ`).  No claim
  under consideration performs any floating-point arithmetic: coordinate
  and altitude values are only parsed and carried through unchanged, so
  binary rounding never matters and exact rationals are faithful.
* Go `(value, error)` returns are modelled as `Except String value`; the
  modelled error string is the `fmt.Errorf` format text with the verbs
  substituted (wrapped library-error suffixes are dropped where the
  wrapped text comes from the Go standard library and no claim depends
  on it).
* Machine integers (`int`, `int64`) are modelled as `Int`; none of the
  quantities involved (timestamps, offsets in seconds) approach 2^63 in
  any claim, and the source performs no wrapping arithmetic on them.
* Go standard-library collaborators (`strconv`, `path/filepath`,
  `encoding/json`, `time`) are modelled by executable Lean functions
  whose behaviour on the inputs relevant to the claims matches Go's
  documented behaviour; each model carries a doc comment saying exactly
  what it covers.
-/

namespace Zweg

/-! ## Model of Go `time.Time` as used by this program

The program only ever builds a `time.Time` via `time.Unix(sec, 0)`
followed by `.UTC()` or `.In(time.FixedZone("", offset))`.  Such a value
is an absolute instant (Unix seconds) plus the offset, in seconds, of
the zone used to display it.  `Format` renders the wall-clock fields,
i.e. the instant shifted by the offset. -/

structure GoTime where
  unix : Int
  offset : Int
  deriving Repr, DecidableEq

/-! ## The Point model (`internal/models/zweite_gps.go`) -/

/-- Model of `models.Point`: one GPS sample decoded from the ZweiteGPS
JSON format.  Field names follow the Go struct.  `Lo`/`La` are `float64`
in Go, modelled as exact rationals (see the header note). -/
structure Point where
  Tm : Int
  Lo : ℚ
  La : ℚ
  Th : Int
  Sp : String
  Co : Int
  Al : String
  He : Int
  Ds : String
  Ms : Int
  Ow : String
  deriving Repr, DecidableEq

/-- The zero value of the Go `Point` struct (what `encoding/json` starts
from before assigning any decoded field). -/
def zeroPoint : Point :=
  { Tm := 0, Lo := 0, La := 0, Th := 0, Sp := "", Co := 0, Al := "",
    He := 0, Ds := "", Ms := 0, Ow := "" }

/-- Model of `Point.Timestamp`: `time.Unix(p.Tm, 0).UTC()` — the instant
`p.Tm` displayed at offset `0`. -/
def Point.Timestamp (p : Point) : GoTime := ⟨p.Tm, 0⟩

/-- Modelled from the spec: `Point.TimestampWithOffset` is code of this
repository that is missing from `src/` — only its caller
(`cli.generateOutputFilename`) and its tests appear there.  Per the
spec it "returns the same absolute instant but represented in a
fixed-offset zone of `offsetSeconds` from UTC", i.e.
`time.Unix(p.Tm, 0).In(time.FixedZone("", offsetSeconds))`. -/
def Point.TimestampWithOffset (p : Point) (offsetSeconds : Int) : GoTime :=
  ⟨p.Tm, offsetSeconds⟩

/-! ## Model of `strconv.ParseFloat` (Go standard library collaborator)

Covers the finite decimal numerals: optional sign, decimal digits with
an optional fraction part (at least one digit in the mantissa overall),
and an optional decimal exponent.  The value is kept exact in `ℚ`
instead of being rounded to binary64, and the special forms
(`Inf`/`NaN`, hexadecimal floats, digit-separating underscores) are not
modelled — no claim mentions or depends on them. -/

def digitsToNat (cs : List Char) : Nat :=
  cs.foldl (fun acc c => acc * 10 + (c.toNat - 48)) 0

def goParseFloat (s : String) : Option ℚ :=
  let signSplit : Int × List Char :=
    match s.data with
    | '+' :: rest => (1, rest)
    | '-' :: rest => (-1, rest)
    | cs => (1, cs)
  let sgn := signSplit.1
  let cs1 := signSplit.2
  let ipart := cs1.takeWhile Char.isDigit
  let cs2 := cs1.dropWhile Char.isDigit
  let fracSplit : List Char × List Char :=
    match cs2 with
    | '.' :: rest => (rest.takeWhile Char.isDigit, rest.dropWhile Char.isDigit)
    | _ => ([], cs2)
  let fpart := fracSplit.1
  let cs3 := fracSplit.2
  if ipart.isEmpty && fpart.isEmpty then none
  else
    let mant : ℚ := (sgn : ℚ) * (digitsToNat (ipart ++ fpart) : ℚ) / ((10 : ℚ) ^ fpart.length)
    match cs3 with
    | [] => some mant
    | e :: rest =>
      if e = 'e' ∨ e = 'E' then
        let expSplit : Int × List Char :=
          match rest with
          | '+' :: r2 => (1, r2)
          | '-' :: r2 => (-1, r2)
          | r2 => (1, r2)
        let ds := expSplit.2
        if ds ≠ [] ∧ ds.all Char.isDigit then
          some (mant * (10 : ℚ) ^ (expSplit.1 * (digitsToNat ds : Int)))
        else none
      else none

/-- Model of Go's `%q` verb as used in this program's error messages
(the offending values in the claims are plain printable strings, so the
escaping cases of `%q` are not modelled). -/
def goQuote (s : String) : String := "\"" ++ s ++ "\""

/-- Model of `Point.Altitude`: empty string parses to `0` with no
error; otherwise `strconv.ParseFloat(p.Al, 64)`, wrapping a parse
failure in an error that names the field and the offending value. -/
def Point.Altitude (p : Point) : Except String ℚ :=
  if p.Al = "" then Except.ok 0
  else
    match goParseFloat p.Al with
    | some v => Except.ok v
    | none => Except.error ("failed to parse altitude " ++ goQuote p.Al)

/-- Model of `Point.Speed` (same shape as `Point.Altitude`). -/
def Point.Speed (p : Point) : Except String ℚ :=
  if p.Sp = "" then Except.ok 0
  else
    match goParseFloat p.Sp with
    | some v => Except.ok v
    | none => Except.error ("failed to parse speed " ++ goQuote p.Sp)

/-- Model of `Point.Distance` (same shape as `Point.Altitude`). -/
def Point.Distance (p : Point) : Except String ℚ :=
  if p.Ds = "" then Except.ok 0
  else
    match goParseFloat p.Ds with
    | some v => Except.ok v
    | none => Except.error ("failed to parse distance " ++ goQuote p.Ds)

/-! ## Model of the GPX document value (`github.com/twpayne/go-gpx`)

Only the fields this program ever sets are modelled; a field the
program leaves at its zero value appears with that zero value. -/

/-- Model of `gpx.WptType` restricted to the fields this program sets:
latitude, longitude, elevation, time and (for Start/Goal waypoints)
name.  Track points leave `Name` at its zero value `""`. -/
structure WptType where
  Lat : ℚ
  Lon : ℚ
  Ele : ℚ
  Time : GoTime
  Name : String
  deriving Repr, DecidableEq

/-- Model of `gpx.TrkSegType` (fields this program sets). -/
structure TrkSegType where
  TrkPt : List WptType
  deriving Repr, DecidableEq

/-- Model of `gpx.TrkType` (fields this program sets). -/
structure TrkType where
  Name : String
  TrkSeg : List TrkSegType
  deriving Repr, DecidableEq

/-- Model of `gpx.MetadataType` (fields this program sets). -/
structure MetadataType where
  Name : String
  Time : GoTime
  deriving Repr, DecidableEq

/-- Model of `gpx.GPX` (fields this program sets). -/
structure GPX where
  Version : String
  Creator : String
  Metadata : Option MetadataType
  Wpt : List WptType
  Trk : List TrkType
  deriving Repr, DecidableEq

/-! ## The converter (`internal/converter/converter.go`) -/

/-- Model of `converter.Config`. -/
structure ConvConfig where
  Version : String
  Creator : String
  IncludeWaypoint : Bool
  deriving Repr, DecidableEq

/-- Model of `converter.DefaultConfig`. -/
def DefaultConfig : ConvConfig :=
  { Version := "1.1", Creator := "zweg - ZweiteGPS to GPX Converter",
    IncludeWaypoint := true }

/-- Model of `GPXConverter.addWaypoints`: builds the Start waypoint from
`points[0]` and the Goal waypoint from `points[len(points)-1]`,
propagating an altitude parse failure of either endpoint.  The Go code
indexes `points[0]` and `points[len(points)-1]` unconditionally; its
only caller (`Convert`) has already ruled out the empty list, for which
this model returns no waypoints. -/
def addWaypoints (points : List Point) : Except String (List WptType) :=
  match points.head?, points.getLast? with
  | some firstPoint, some lastPoint =>
    match firstPoint.Altitude with
    | Except.error e => Except.error ("failed to parse start altitude: " ++ e)
    | Except.ok firstAlt =>
      match lastPoint.Altitude with
      | Except.error e => Except.error ("failed to parse end altitude: " ++ e)
      | Except.ok lastAlt =>
        Except.ok
          [ { Lat := firstPoint.La, Lon := firstPoint.Lo, Ele := firstAlt,
              Time := firstPoint.Timestamp, Name := "Start" },
            { Lat := lastPoint.La, Lon := lastPoint.Lo, Ele := lastAlt,
              Time := lastPoint.Timestamp, Name := "Goal" } ]
  | _, _ => Except.ok []

/-- Model of the `for i, point := range points` loop in
`GPXConverter.Convert`: turns each point into a GPX track point,
aborting at the first altitude that fails to parse (with the point's
index in the error). -/
def buildTrkPts : Nat → List Point → Except String (List WptType)
  | _, [] => Except.ok []
  | i, point :: rest =>
    match point.Altitude with
    | Except.error e =>
      Except.error ("failed to parse altitude at point " ++ toString i ++ ": " ++ e)
    | Except.ok alt =>
      match buildTrkPts (i + 1) rest with
      | Except.error e => Except.error e
      | Except.ok tl =>
        Except.ok ({ Lat := point.La, Lon := point.Lo, Ele := alt,
                     Time := point.Timestamp, Name := "" } :: tl)

/-- Model of `GPXConverter.Convert`. -/
def Convert (config : ConvConfig) (points : List Point) (trackName : String) :
    Except String GPX :=
  match points with
  | [] => Except.error "no data points provided"
  | firstPoint :: _ =>
    let trackName := if trackName = "" then "Track" else trackName
    let startTime := firstPoint.Timestamp
    let wptE : Except String (List WptType) :=
      if config.IncludeWaypoint then
        match addWaypoints points with
        | Except.error e => Except.error ("failed to add waypoints: " ++ e)
        | Except.ok ws => Except.ok ws
      else Except.ok []
    match wptE with
    | Except.error e => Except.error e
    | Except.ok wpts =>
      match buildTrkPts 0 points with
      | Except.error e => Except.error e
      | Except.ok trkPts =>
        Except.ok
          { Version := config.Version, Creator := config.Creator,
            Metadata := some { Name := trackName, Time := startTime },
            Wpt := wpts,
            Trk := [ { Name := trackName, TrkSeg := [ { TrkPt := trkPts } ] } ] }

/-! ## Model of `path/filepath` (Go standard library collaborator, Unix
rules: the separator is `/` and there are no volume names, so
`filepath.ToSlash` is the identity and `filepath.IsAbs` is "starts with
`/`"). -/

/-- Model of `filepath.IsAbs` (Unix): the path starts with `/`. -/
def goIsAbs (s : String) : Bool :=
  match s.data with
  | c :: _ => c = '/'
  | [] => false

/-- Splitting a path on `/` (the model of `strings.Split(path, "/")`
as `filepath.Clean` uses it), written on character lists so that it
evaluates by kernel reduction. -/
def splitOnSlashAux : List Char → List Char → List String
  | cur, [] => [String.mk cur.reverse]
  | cur, c :: rest =>
    if c = '/' then String.mk cur.reverse :: splitOnSlashAux [] rest
    else splitOnSlashAux (c :: cur) rest

def splitOnSlash (s : String) : List String := splitOnSlashAux [] s.data

/-- Stack-based core of `filepath.Clean`: processes the `/`-separated
segments left to right, skipping empty and `.` segments, letting `..`
pop the latest real segment (or be kept, when there is nothing to pop
and the path is not rooted; a `..` at the root of a rooted path is
dropped).  The accumulating stack is kept reversed. -/
def cleanLoop (rooted : Bool) : List String → List String → List String
  | stack, [] => stack.reverse
  | stack, seg :: rest =>
    if seg = "" ∨ seg = "." then cleanLoop rooted stack rest
    else if seg = ".." then
      match stack with
      | top :: stackTail =>
        if top = ".." then cleanLoop rooted (".." :: stack) rest
        else cleanLoop rooted stackTail rest
      | [] => if rooted then cleanLoop rooted [] rest else cleanLoop rooted [".."] rest
    else cleanLoop rooted (seg :: stack) rest

/-- Model of `filepath.Clean` (Unix): lexical cleaning — resolve `.`
segments and redundant separators, apply `..` segments lexically, and
return `.` for an empty result. -/
def goClean (path : String) : String :=
  if path = "" then "."
  else
    let rooted := goIsAbs path
    let segs := cleanLoop rooted [] (splitOnSlash path)
    let out := String.intercalate "/" segs
    if rooted then "/" ++ out
    else if out = "" then "." else out

/-- Model of `filepath.Join` on two elements: non-empty elements joined
with `/`, then cleaned; all-empty input gives `""`. -/
def goJoin (a b : String) : String :=
  if a = "" && b = "" then ""
  else if a = "" then goClean b
  else if b = "" then goClean a
  else goClean (a ++ "/" ++ b)

/-- Model of `filepath.Dir` (Unix): everything up to and including the
final `/` (empty when there is no `/`), cleaned. -/
def goDir (path : String) : String :=
  let pre := (path.data.reverse.dropWhile (fun c => c ≠ '/')).reverse
  goClean (String.mk pre)

/-- Model of `filepath.Abs` (Unix): an absolute path is cleaned, a
relative one is joined onto the working directory `cwd` (the
`os.Getwd` collaborator, here a parameter; its failure is an
environment condition the claims do not touch). -/
def goAbs (cwd path : String) : String :=
  if goIsAbs path then goClean path
  else goJoin cwd path

/-- Decides whether a character list contains two consecutive dots —
the model of `strings.Contains(s, "..")`. -/
def containsDotDot : List Char → Bool
  | [] => false
  | '.' :: '.' :: _ => true
  | _ :: rest => containsDotDot rest

/-- Model of `cli.validateOutputPath`: empty input is an error; the
input is lexically cleaned and made absolute, and if the cleaned path
contains the substring `..` a path-traversal error is returned,
otherwise the absolute form of the cleaned path.  (The source computes
the absolute path before the `..` check; the `filepath.Abs` error
branch can only trigger when `os.Getwd` fails and is not modelled.) -/
def validateOutputPath (cwd path : String) : Except String String :=
  if path = "" then Except.error "output path is empty"
  else
    let cleaned := goClean path
    let absPath := goAbs cwd cleaned
    if containsDotDot cleaned.data then
      Except.error ("path " ++ goQuote path ++ " contains invalid relative path components")
    else Except.ok absPath

/-! ## Model of `time.Time.Format("20060102-150405")`

Go formats the wall-clock fields of the instant as displayed in its
zone, i.e. the instant shifted by the zone offset.  The civil-calendar
computation below is the standard days-to-Gregorian-date algorithm.
Years are rendered as four zero-padded digits (no claim involves dates
before year 1000 or after year 9999). -/

def pad2 (n : Nat) : String :=
  if n < 10 then "0" ++ toString n else toString n

def pad4 (n : Nat) : String :=
  if n < 10 then "000" ++ toString n
  else if n < 100 then "00" ++ toString n
  else if n < 1000 then "0" ++ toString n
  else toString n

/-- Gregorian date (year, month, day) of a day count relative to
1970-01-01. -/
def civilFromDays (z0 : Int) : Int × Nat × Nat :=
  let z := z0 + 719468
  let era : Int := z.ediv 146097
  let doe : Nat := (z - era * 146097).toNat
  let yoe : Nat := (doe - doe / 1460 + doe / 36524 - doe / 146097) / 365
  let y : Int := (yoe : Int) + era * 400
  let doy : Nat := doe - (365 * yoe + yoe / 4 - yoe / 100)
  let mp : Nat := (5 * doy + 2) / 153
  let d : Nat := doy - (153 * mp + 2) / 5 + 1
  let m : Nat := if mp < 10 then mp + 3 else mp - 9
  (y + (if m ≤ 2 then 1 else 0), m, d)

/-- Model of `t.Format("20060102-150405")` on a `GoTime`. -/
def goFormatYmdHms (t : GoTime) : String :=
  let wall := t.unix + t.offset
  let days := wall.ediv 86400
  let sod := (wall.emod 86400).toNat
  let c := civilFromDays days
  pad4 c.1.toNat ++ pad2 c.2.1 ++ pad2 c.2.2 ++ "-" ++
    pad2 (sod / 3600) ++ pad2 (sod % 3600 / 60) ++ pad2 (sod % 60)

/-! ## Model of `strconv.Atoi` (Go standard library collaborator)

An optional leading `+` or `-` followed by at least one decimal digit,
and nothing else.  Overflow of `int` is not modelled: every use in this
program feeds `Atoi` a two-character component. -/

def goAtoi (s : String) : Option Int :=
  match s.data with
  | [] => none
  | c :: rest =>
    if c = '+' then
      if rest ≠ [] ∧ rest.all Char.isDigit then some ((digitsToNat rest : Nat) : Int)
      else none
    else if c = '-' then
      if rest ≠ [] ∧ rest.all Char.isDigit then some (-((digitsToNat rest : Nat) : Int))
      else none
    else
      if (c :: rest).all Char.isDigit then some ((digitsToNat (c :: rest) : Nat) : Int)
      else none

/-! ## The timezone offset parser (`pkg/cli/cli.go`, `ParseTimezoneOffset`)

Error strings follow the source's `fmt.Errorf` texts; the wrapped
`strconv` error text inside the invalid-hours/invalid-minutes messages
is dropped (no claim depends on it).  Lengths are character counts:
every accepted input is pure ASCII, where Go's byte lengths agree. -/

/-- Model of `strings.Contains(s, ":")` at the character level. -/
def containsColon : List Char → Bool
  | [] => false
  | c :: rest => if c = ':' then true else containsColon rest

/-- Model of `strings.Split(s, ":")` at the character level. -/
def splitOnColon : List Char → List (List Char)
  | [] => [[]]
  | c :: rest =>
    if c = ':' then [] :: splitOnColon rest
    else
      match splitOnColon rest with
      | [] => [[c]]
      | p :: ps => (c :: p) :: ps

/-- The range checks at the end of `ParseTimezoneOffset` (hours 0–14,
minutes 0–59, the `14:xx` composite bound, and the final signed-total
bound). -/
def tzRangeChecks (offset : String) (sign h m : Int) : Except String Int :=
  if h < 0 ∨ h > 14 then
    Except.error ("hours out of valid range in " ++ goQuote offset ++ ": got " ++
      toString h ++ " (expected 0-14)")
  else if m < 0 ∨ m > 59 then
    Except.error ("minutes out of valid range in " ++ goQuote offset ++ ": got " ++
      toString m ++ " (expected 0-59)")
  else if h = 14 ∧ m > 0 then
    Except.error ("timezone offset out of valid range: " ++ goQuote offset ++
      " (maximum offset is +14:00)")
  else
    let totalSeconds := sign * (h * 3600 + m * 60)
    if totalSeconds < -12 * 3600 ∨ totalSeconds > 14 * 3600 then
      Except.error ("timezone offset out of valid range: " ++ goQuote offset ++
        " (expected -12:00 to +14:00)")
    else Except.ok totalSeconds

/-- The body of `ParseTimezoneOffset` after the sign has been stripped
(`offset` here is the sign-stripped remainder, exactly as in the source
after `offset = offset[1:]`). -/
def parseTzBody (sign : Int) (offset : String) : Except String Int :=
  if containsColon offset.data then
    match splitOnColon offset.data with
    | [p0, p1] =>
      if p0.length ≠ 2 ∨ p1.length ≠ 2 then
        Except.error ("invalid timezone offset format: " ++ goQuote offset ++
          " (expected ±HH:MM format with 2-digit hours and minutes)")
      else
        match goAtoi (String.mk p0) with
        | none =>
          Except.error ("invalid hours in timezone offset " ++ goQuote offset ++
            " (expected numeric value 00-14)")
        | some h =>
          match goAtoi (String.mk p1) with
          | none =>
            Except.error ("invalid minutes in timezone offset " ++ goQuote offset ++
              " (expected numeric value 00-59)")
          | some m => tzRangeChecks offset sign h m
    | _ =>
      Except.error ("invalid timezone offset format: " ++ goQuote offset ++
        " (expected ±HH:MM format with exactly one colon)")
  else
    if offset.length ≠ 4 then
      Except.error ("invalid timezone offset format: " ++ goQuote offset ++
        " (expected ±HHMM format with 4 digits)")
    else
      match goAtoi (String.mk (offset.data.take 2)) with
      | none =>
        Except.error ("invalid hours in timezone offset " ++ goQuote offset ++
          " (expected numeric value 00-14)")
      | some h =>
        match goAtoi (String.mk (offset.data.drop 2)) with
        | none =>
          Except.error ("invalid minutes in timezone offset " ++ goQuote offset ++
            " (expected numeric value 00-59)")
        | some m => tzRangeChecks offset sign h m

/-- Model of `cli.ParseTimezoneOffset`. -/
def ParseTimezoneOffset (offset : String) : Except String Int :=
  if offset = "" then Except.error "timezone offset is empty"
  else if offset.length < 3 then
    Except.error ("invalid timezone offset format: " ++ goQuote offset ++
      " (expected ±HH:MM or ±HHMM)")
  else
    match offset.data with
    | [] =>
      Except.error ("timezone offset must start with + or -: " ++ goQuote offset ++
        " (expected ±HH:MM or ±HHMM format)")
    | c0 :: rest =>
      if c0 = '+' then parseTzBody 1 (String.mk rest)
      else if c0 = '-' then parseTzBody (-1) (String.mk rest)
      else
        Except.error ("timezone offset must start with + or -: " ++ goQuote offset ++
          " (expected ±HH:MM or ±HHMM format)")

/-! ## Output filename generation and the CLI run (`pkg/cli/cli.go`) -/

/-- Model of `CLI.generateOutputFilename`: an empty point list falls
back to `inputFile + ".gpx"`; otherwise the base name is the first
point's instant (shifted into the fixed-offset zone when the offset is
non-zero) formatted as `YYYYMMDD-HHMMSS` plus `".gpx"`, placed in the
validated output directory if one was given and in the input file's
directory otherwise. -/
def generateOutputFilename (cwd inputFile outputDir : String) (points : List Point)
    (timezoneOffset : Int) : Except String String :=
  match points with
  | [] => Except.ok (inputFile ++ ".gpx")
  | firstPoint :: _ =>
    let timestamp :=
      if timezoneOffset = 0 then firstPoint.Timestamp
      else firstPoint.TimestampWithOffset timezoneOffset
    let baseName := goFormatYmdHms timestamp ++ ".gpx"
    let dirE : Except String String :=
      if outputDir = "" then Except.ok (goDir inputFile)
      else
        match validateOutputPath cwd outputDir with
        | Except.error e => Except.error ("invalid output directory: " ++ e)
        | Except.ok d => Except.ok d
    match dirE with
    | Except.error e => Except.error e
    | Except.ok dir => Except.ok (goJoin dir baseName)

instance {ε α : Type} [DecidableEq ε] [DecidableEq α] : DecidableEq (Except ε α) := fun x y =>
  match x, y with
  | Except.ok a, Except.ok b =>
    if h : a = b then isTrue (h ▸ rfl) else isFalse (fun hc => h (Except.ok.inj hc))
  | Except.error a, Except.error b =>
    if h : a = b then isTrue (h ▸ rfl) else isFalse (fun hc => h (Except.error.inj hc))
  | Except.ok _, Except.error _ => isFalse (fun hc => Except.noConfusion hc)
  | Except.error _, Except.ok _ => isFalse (fun hc => Except.noConfusion hc)

/-- The observable outcome of one `CLI.Run` invocation: the final
result (on success, the output path that was reported), the directories
passed to `os.MkdirAll`, and the `(path, document)` pairs passed to the
writer, in order. -/
structure RunTrace where
  result : Except String String
  dirsCreated : List String
  writes : List (String × GPX)
  deriving Repr, DecidableEq

/-- Model of `CLI.Run` with the default wiring (`converter.New(nil)`,
i.e. `DefaultConfig`).  The reader collaborator is abstracted as its
outcome `readResult`; `os.MkdirAll` and the writer are modelled as
succeeding (their failures are environment conditions outside the
claims) and recorded in the trace. -/
def run (readResult : Except String (List Point))
    (cwd inputFile outputFile outputDir trackName : String)
    (timezoneOffset : Int) : RunTrace :=
  if inputFile = "" then ⟨Except.error "input file is required", [], []⟩
  else
    match readResult with
    | Except.error e => ⟨Except.error ("failed to read input file: " ++ e), [], []⟩
    | Except.ok points =>
      let outFileE : Except String String :=
        if outputFile = "" then
          match generateOutputFilename cwd inputFile outputDir points timezoneOffset with
          | Except.error e => Except.error ("failed to generate output filename: " ++ e)
          | Except.ok f => Except.ok f
        else
          match validateOutputPath cwd outputFile with
          | Except.error e => Except.error ("invalid output file path: " ++ e)
          | Except.ok f => Except.ok f
      match outFileE with
      | Except.error e => ⟨Except.error e, [], []⟩
      | Except.ok outFile =>
        let trackName := if trackName = "" then "Track" else trackName
        let outputFileDir := goDir outFile
        match Convert DefaultConfig points trackName with
        | Except.error e =>
          ⟨Except.error ("failed to convert data: " ++ e), [outputFileDir], []⟩
        | Except.ok gpxData =>
          ⟨Except.ok outFile, [outputFileDir], [(outFile, gpxData)]⟩

/-! ## Model of `encoding/json` decoding into `[]models.Point`
(`internal/fileio/reader.go`)

`json.NewDecoder(r).Decode(&points)` reads ONE JSON value from the
stream (bytes after that value are left unread, not an error) and
unmarshals it into a `[]Point`:

* a JSON array decodes element-wise; a JSON `null` yields a nil slice
  (zero elements) with no error; anything else is a decode error;
* each element must be an object (or `null`, which leaves the zero
  `Point`); object keys are matched to struct fields case-insensitively
  (modelled with ASCII folding), unknown keys are ignored, a `null`
  value leaves the field unchanged, and later duplicate keys overwrite
  earlier ones;
* numbers decode exactly into `ℚ`; for the integer fields the fraction
  must be integral (Go is in addition syntactically strict about forms
  such as `5.0` or `5e2` for integer fields; no claim feeds those
  forms).

Strings follow the JSON escape rules; surrogate-pair combining is not
modelled (no claim uses astral-plane text). -/

inductive JValue where
  | jnull
  | jbool (b : Bool)
  | jnum (q : ℚ)
  | jstr (s : String)
  | jarr (xs : List JValue)
  | jobj (fields : List (String × JValue))

def isJsonWs (c : Char) : Bool := c = ' ' ∨ c = '\t' ∨ c = '\n' ∨ c = '\r'

def skipWs (cs : List Char) : List Char := cs.dropWhile isJsonWs

/-- Strict JSON number grammar, with the value kept exact in `ℚ`. -/
def parseJNum (cs : List Char) : Option (ℚ × List Char) :=
  let signSplit : Bool × List Char :=
    match cs with
    | '-' :: rest => (true, rest)
    | _ => (false, cs)
  let cs1 := signSplit.2
  let intSplit : Option (List Char × List Char) :=
    match cs1 with
    | '0' :: rest => some (['0'], rest)
    | c :: rest =>
      if c.isDigit then some (c :: rest.takeWhile Char.isDigit, rest.dropWhile Char.isDigit)
      else none
    | [] => none
  match intSplit with
  | none => none
  | some (ip, cs2) =>
    let fracSplit : Option (List Char × List Char) :=
      match cs2 with
      | '.' :: rest =>
        let fs := rest.takeWhile Char.isDigit
        if fs.isEmpty then none else some (fs, rest.dropWhile Char.isDigit)
      | _ => some ([], cs2)
    match fracSplit with
    | none => none
    | some (fp, cs3) =>
      let expSplit : Option (Int × List Char) :=
        match cs3 with
        | e :: rest =>
          if e = 'e' ∨ e = 'E' then
            let esign : Int × List Char :=
              match rest with
              | '+' :: r2 => (1, r2)
              | '-' :: r2 => (-1, r2)
              | r2 => (1, r2)
            let ds := esign.2.takeWhile Char.isDigit
            if ds.isEmpty then none
            else some (esign.1 * (digitsToNat ds : Int), esign.2.dropWhile Char.isDigit)
          else some (0, cs3)
        | [] => some (0, [])
      match expSplit with
      | none => none
      | some (ex, cs4) =>
        let mant : ℚ := (digitsToNat (ip ++ fp) : ℚ) / (10 : ℚ) ^ fp.length
        some ((if signSplit.1 then -mant else mant) * (10 : ℚ) ^ ex, cs4)

def decodeHex (c : Char) : Option Nat :=
  if '0' ≤ c ∧ c ≤ '9' then some (c.toNat - 48)
  else if 'a' ≤ c ∧ c ≤ 'f' then some (c.toNat - 87)
  else if 'A' ≤ c ∧ c ≤ 'F' then some (c.toNat - 55)
  else none

/-- The characters of a JSON string after the opening quote, up to and
consuming the closing quote. -/
def parseJStrChars : Nat → List Char → Option (List Char × List Char)
  | 0, _ => none
  | fuel + 1, cs =>
    match cs with
    | [] => none
    | '"' :: rest => some ([], rest)
    | '\\' :: esc :: rest =>
      let decoded : Option (Char × List Char) :=
        match esc, rest with
        | 'u', h1 :: h2 :: h3 :: h4 :: rest2 =>
          match decodeHex h1, decodeHex h2, decodeHex h3, decodeHex h4 with
          | some a, some b, some c, some d =>
            some (Char.ofNat (((a * 16 + b) * 16 + c) * 16 + d), rest2)
          | _, _, _, _ => none
        | 'u', _ => none
        | '"', _ => some ('"', rest)
        | '\\', _ => some ('\\', rest)
        | '/', _ => some ('/', rest)
        | 'b', _ => some (Char.ofNat 8, rest)
        | 'f', _ => some (Char.ofNat 12, rest)
        | 'n', _ => some ('\n', rest)
        | 'r', _ => some ('\r', rest)
        | 't', _ => some ('\t', rest)
        | _, _ => none
      match decoded with
      | none => none
      | some (c, rest2) =>
        match parseJStrChars fuel rest2 with
        | none => none
        | some (s, r) => some (c :: s, r)
    | c :: rest =>
      if c.toNat < 32 then none
      else
        match parseJStrChars fuel rest with
        | none => none
        | some (s, r) => some (c :: s, r)

mutual

/-- One JSON value, leading whitespace allowed, returning the unread
remainder.  Fuel-indexed; callers supply ample fuel. -/
def parseJValue : Nat → List Char → Option (JValue × List Char)
  | 0, _ => none
  | fuel + 1, cs0 =>
    let cs := skipWs cs0
    match cs with
    | 'n' :: 'u' :: 'l' :: 'l' :: rest => some (JValue.jnull, rest)
    | 't' :: 'r' :: 'u' :: 'e' :: rest => some (JValue.jbool true, rest)
    | 'f' :: 'a' :: 'l' :: 's' :: 'e' :: rest => some (JValue.jbool false, rest)
    | '"' :: rest =>
      match parseJStrChars (rest.length + 1) rest with
      | none => none
      | some (s, r) => some (JValue.jstr (String.mk s), r)
    | '[' :: rest =>
      let rest2 := skipWs rest
      match rest2 with
      | ']' :: r2 => some (JValue.jarr [], r2)
      | _ =>
        match parseJArrItems fuel rest2 with
        | none => none
        | some (xs, r2) => some (JValue.jarr xs, r2)
    | '{' :: rest =>
      let rest2 := skipWs rest
      match rest2 with
      | '}' :: r2 => some (JValue.jobj [], r2)
      | _ =>
        match parseJObjItems fuel rest2 with
        | none => none
        | some (fs, r2) => some (JValue.jobj fs, r2)
    | _ =>
      match parseJNum cs with
      | none => none
      | some (q, r) => some (JValue.jnum q, r)

/-- Comma-separated array items up to and consuming `]`. -/
def parseJArrItems : Nat → List Char → Option (List JValue × List Char)
  | 0, _ => none
  | fuel + 1, cs =>
    match parseJValue fuel cs with
    | none => none
    | some (v, r) =>
      match skipWs r with
      | ',' :: r2 =>
        match parseJArrItems fuel r2 with
        | none => none
        | some (vs, r3) => some (v :: vs, r3)
      | ']' :: r2 => some ([v], r2)
      | _ => none

/-- Comma-separated `"key": value` object members up to and consuming
`}`. -/
def parseJObjItems : Nat → List Char → Option (List (String × JValue) × List Char)
  | 0, _ => none
  | fuel + 1, cs =>
    match skipWs cs with
    | '"' :: rest =>
      match parseJStrChars (rest.length + 1) rest with
      | none => none
      | some (k, r) =>
        match skipWs r with
        | ':' :: r2 =>
          match parseJValue fuel r2 with
          | none => none
          | some (v, r3) =>
            match skipWs r3 with
            | ',' :: r4 =>
              match parseJObjItems fuel r4 with
              | none => none
              | some (fs, r5) => some ((String.mk k, v) :: fs, r5)
            | '}' :: r4 => some ([(String.mk k, v)], r4)
            | _ => none
        | _ => none
    | _ => none

end

/-- ASCII-folding key comparison (model of `encoding/json`'s
case-insensitive field matching). -/
def foldChar (c : Char) : Char :=
  if 'A' ≤ c ∧ c ≤ 'Z' then Char.ofNat (c.toNat + 32) else c

def eqFold (a b : String) : Bool := a.data.map foldChar = b.data.map foldChar

def jvToInt (v : JValue) : Option Int :=
  match v with
  | JValue.jnum q => if q.den = 1 then some q.num else none
  | _ => none

def jvToQ (v : JValue) : Option ℚ :=
  match v with
  | JValue.jnum q => some q
  | _ => none

def jvToStr (v : JValue) : Option String :=
  match v with
  | JValue.jstr s => some s
  | _ => none

def isJNull : JValue → Bool
  | JValue.jnull => true
  | _ => false

/-- Unmarshalling one object member into the matching `Point` field:
`null` and unknown keys leave the struct unchanged, a type mismatch is
a decode error. -/
def assignField (p : Point) (key : String) (v : JValue) : Option Point :=
  if isJNull v then some p
  else
    if eqFold key "tm" then (jvToInt v).map (fun n => { p with Tm := n })
    else if eqFold key "lo" then (jvToQ v).map (fun q => { p with Lo := q })
    else if eqFold key "la" then (jvToQ v).map (fun q => { p with La := q })
    else if eqFold key "th" then (jvToInt v).map (fun n => { p with Th := n })
    else if eqFold key "sp" then (jvToStr v).map (fun s => { p with Sp := s })
    else if eqFold key "co" then (jvToInt v).map (fun n => { p with Co := n })
    else if eqFold key "al" then (jvToStr v).map (fun s => { p with Al := s })
    else if eqFold key "he" then (jvToInt v).map (fun n => { p with He := n })
    else if eqFold key "ds" then (jvToStr v).map (fun s => { p with Ds := s })
    else if eqFold key "ms" then (jvToInt v).map (fun n => { p with Ms := n })
    else if eqFold key "ow" then (jvToStr v).map (fun s => { p with Ow := s })
    else some p

/-- Folds the object's members, in order, onto a `Point` (so later
duplicate keys overwrite earlier ones, as in `encoding/json`). -/
def decodePointFields : Point → List (String × JValue) → Option Point
  | p, [] => some p
  | p, (k, v) :: rest =>
    match assignField p k v with
    | none => none
    | some p2 => decodePointFields p2 rest

/-- One array element: an object decoded field-wise from the zero
`Point`; `null` leaves the zero `Point`; anything else is a decode
error. -/
def decodePointValue (v : JValue) : Option Point :=
  match v with
  | JValue.jobj fs => decodePointFields zeroPoint fs
  | JValue.jnull => some zeroPoint
  | _ => none

def decodePointList : List JValue → Option (List Point)
  | [] => some []
  | v :: rest =>
    match decodePointValue v, decodePointList rest with
    | some p, some ps => some (p :: ps)
    | _, _ => none

/-- Model of `json.NewDecoder(r).Decode(&points)`: read the first JSON
value (trailing bytes are left unread), then unmarshal it into a
`[]Point` — `null` gives the nil slice. -/
def decodeZweite (s : String) : Option (List Point) :=
  match parseJValue (2 * s.length + 2) s.data with
  | none => none
  | some (v, _) =>
    match v with
    | JValue.jarr xs => decodePointList xs
    | JValue.jnull => some []
    | _ => none

/-- Model of `JSONReader.ReadFrom`: a decode failure is wrapped as a
parse error (the wrapped `encoding/json` error text is dropped), a
decoded empty slice is the empty-input error, otherwise the points are
returned. -/
def ReadFrom (s : String) : Except String (List Point) :=
  match decodeZweite s with
  | none => Except.error "failed to parse JSON"
  | some points =>
    if points.length = 0 then Except.error "no data points found in JSON"
    else Except.ok points

/-! ## Claim-side definitions

The definitions in this section transcribe the wording of the claims
(and, where a claim needed amending, the amended wording); they are
deliberately written from the claims' words, independently of the
implementation functions above, and the theorems below relate the
two. -/

/-- The claims' parse-or-fail criterion for a raw measurement string:
empty, or accepted by the float parser. -/
def altOk (p : Point) : Bool := p.Al = "" || (goParseFloat p.Al).isSome

/-- The parsed altitude of a point in the claims' sense: empty string
means `0`, otherwise the parsed value (junk default, never exposed by
the theorems, for the unparsable case). -/
def altVal (p : Point) : ℚ :=
  if p.Al = "" then 0 else (goParseFloat p.Al).getD 0

/-- The track point the claims predict for an input point: latitude,
longitude, parsed altitude, and the point's Unix timestamp rendered in
UTC. -/
def expectedTrkPt (p : Point) : WptType :=
  { Lat := p.La, Lon := p.Lo, Ele := altVal p, Time := ⟨p.Tm, 0⟩, Name := "" }

/-- The named waypoint the claims predict for an endpoint of the
track. -/
def namedWpt (p : Point) (nm : String) : WptType :=
  { Lat := p.La, Lon := p.Lo, Ele := altVal p, Time := ⟨p.Tm, 0⟩, Name := nm }

def digitVal (c : Char) : Nat := c.toNat - 48

/-- A two-character numeric component exactly as claim C2 states it:
two decimal digits. -/
def twoDigits (a b : Char) : Option Int :=
  if a.isDigit ∧ b.isDigit then some ((digitVal a * 10 + digitVal b : Nat) : Int)
  else none

/-- A two-character component as Go's `Atoi` accepts it (the amended
wording of C2): two digits, or a `+`/`-` sign followed by one digit. -/
def atoi2 (a b : Char) : Option Int :=
  if a.isDigit ∧ b.isDigit then some ((digitVal a * 10 + digitVal b : Nat) : Int)
  else if a = '+' ∧ b.isDigit then some ((digitVal b : Nat) : Int)
  else if a = '-' ∧ b.isDigit then some (-((digitVal b : Nat) : Int))
  else none

/-- The range conditions claim C2 states: hours `0..14`, minutes
`0..59`, minutes `0` when hours is `14`, signed total within
`-43200..50400`. -/
def tzRangeSpec (sign h m : Int) : Option Int :=
  if 0 ≤ h ∧ h ≤ 14 ∧ 0 ≤ m ∧ m ≤ 59 ∧ ¬(h = 14 ∧ 0 < m) ∧
      -43200 ≤ sign * (h * 3600 + m * 60) ∧ sign * (h * 3600 + m * 60) ≤ 50400 then
    some (sign * (h * 3600 + m * 60))
  else none

/-- The sign-stripped body of a timezone offset per claim C2 as
stated: `HH:MM` (two digits, one colon, two digits) or `HHMM` (four
digits, no colon), with the range conditions. -/
def tzClaimBody (sign : Int) : List Char → Option Int
  | [h1, h2, ':', m1, m2] =>
    match twoDigits h1 h2, twoDigits m1 m2 with
    | some h, some m => tzRangeSpec sign h m
    | _, _ => none
  | [h1, h2, m1, m2] =>
    match twoDigits h1 h2, twoDigits m1 m2 with
    | some h, some m => tzRangeSpec sign h m
    | _, _ => none
  | _ => none

/-- Claim C2 as stated, as a reference function: `some` of the offset
in seconds exactly on the inputs the claim says are accepted, `none`
on every other input. -/
def tzClaimSpec (s : String) : Option Int :=
  match s.data with
  | [] => none
  | c0 :: body =>
    if c0 = '+' then tzClaimBody 1 body
    else if c0 = '-' then tzClaimBody (-1) body
    else none

/-- The sign-stripped body per the amended claim C2: the same two
shapes, but each two-character component is anything Go's `Atoi`
accepts (see `atoi2`). -/
def tzBodySpec (sign : Int) : List Char → Option Int
  | [h1, h2, ':', m1, m2] =>
    match atoi2 h1 h2, atoi2 m1 m2 with
    | some h, some m => tzRangeSpec sign h m
    | _, _ => none
  | [h1, h2, m1, m2] =>
    match atoi2 h1 h2, atoi2 m1 m2 with
    | some h, some m => tzRangeSpec sign h m
    | _, _ => none
  | _ => none

/-- The amended claim C2 as a reference function. -/
def tzAmendedSpec (s : String) : Option Int :=
  match s.data with
  | [] => none
  | c0 :: body =>
    if c0 = '+' then tzBodySpec 1 body
    else if c0 = '-' then tzBodySpec (-1) body
    else none

/-- Claim C3's wording: the cleaned path contains a parent-directory
(`..`) component, i.e. one of its `/`-separated segments is exactly
`..`. -/
def specHasDotDotComponent (s : String) : Bool :=
  (splitOnSlash s).contains ".."

/-- Claim C9's wording: the bytes are a single well-formed JSON array
matching the Point shape — one JSON array value, decodable
element-wise into Points, with nothing but whitespace after it. -/
def specIsWellFormedPointArray (s : String) : Bool :=
  match parseJValue (2 * s.length + 2) s.data with
  | some (JValue.jarr xs, rest) => (skipWs rest).isEmpty && (decodePointList xs).isSome
  | _ => false

/-- Claim C10's absence condition for an object key (matching is
case-insensitive in `encoding/json`, so absence is case-insensitive
too). -/
def keyAbsent (fields : List (String × JValue)) (k : String) : Bool :=
  fields.all (fun kv => !(eqFold kv.1 k))

/-- All eleven `Point` fields whose name satisfies `test` agree between
`p0` and `pt` (used to state that decoding leaves unassigned fields
unchanged). -/
def FieldsUnchanged (test : String → Prop) (p0 pt : Point) : Prop :=
  (test "tm" → pt.Tm = p0.Tm) ∧ (test "lo" → pt.Lo = p0.Lo) ∧
  (test "la" → pt.La = p0.La) ∧ (test "th" → pt.Th = p0.Th) ∧
  (test "sp" → pt.Sp = p0.Sp) ∧ (test "co" → pt.Co = p0.Co) ∧
  (test "al" → pt.Al = p0.Al) ∧ (test "he" → pt.He = p0.He) ∧
  (test "ds" → pt.Ds = p0.Ds) ∧ (test "ms" → pt.Ms = p0.Ms) ∧
  (test "ow" → pt.Ow = p0.Ow)

/-! ## Helper lemmas -/

theorem fieldsUnchanged_refl (test : String → Prop) (p : Point) :
    FieldsUnchanged test p p :=
  ⟨fun _ => rfl, fun _ => rfl, fun _ => rfl, fun _ => rfl, fun _ => rfl, fun _ => rfl,
   fun _ => rfl, fun _ => rfl, fun _ => rfl, fun _ => rfl, fun _ => rfl⟩

theorem fieldsUnchanged_comp (test : String → Prop) (p0 p1 p2 : Point)
    (h01 : FieldsUnchanged test p0 p1) (h12 : FieldsUnchanged test p1 p2) :
    FieldsUnchanged test p0 p2 :=
  ⟨fun h => (h12.1 h).trans (h01.1 h),
   fun h => (h12.2.1 h).trans (h01.2.1 h),
   fun h => (h12.2.2.1 h).trans (h01.2.2.1 h),
   fun h => (h12.2.2.2.1 h).trans (h01.2.2.2.1 h),
   fun h => (h12.2.2.2.2.1 h).trans (h01.2.2.2.2.1 h),
   fun h => (h12.2.2.2.2.2.1 h).trans (h01.2.2.2.2.2.1 h),
   fun h => (h12.2.2.2.2.2.2.1 h).trans (h01.2.2.2.2.2.2.1 h),
   fun h => (h12.2.2.2.2.2.2.2.1 h).trans (h01.2.2.2.2.2.2.2.1 h),
   fun h => (h12.2.2.2.2.2.2.2.2.1 h).trans (h01.2.2.2.2.2.2.2.2.1 h),
   fun h => (h12.2.2.2.2.2.2.2.2.2.1 h).trans (h01.2.2.2.2.2.2.2.2.2.1 h),
   fun h => (h12.2.2.2.2.2.2.2.2.2.2 h).trans (h01.2.2.2.2.2.2.2.2.2.2 h)⟩

theorem fieldsUnchanged_mono (t t2 : String → Prop) (p0 pt : Point)
    (h : FieldsUnchanged t p0 pt) (himp : ∀ f, t2 f → t f) :
    FieldsUnchanged t2 p0 pt :=
  ⟨fun hf => h.1 (himp _ hf),
   fun hf => h.2.1 (himp _ hf),
   fun hf => h.2.2.1 (himp _ hf),
   fun hf => h.2.2.2.1 (himp _ hf),
   fun hf => h.2.2.2.2.1 (himp _ hf),
   fun hf => h.2.2.2.2.2.1 (himp _ hf),
   fun hf => h.2.2.2.2.2.2.1 (himp _ hf),
   fun hf => h.2.2.2.2.2.2.2.1 (himp _ hf),
   fun hf => h.2.2.2.2.2.2.2.2.1 (himp _ hf),
   fun hf => h.2.2.2.2.2.2.2.2.2.1 (himp _ hf),
   fun hf => h.2.2.2.2.2.2.2.2.2.2 (himp _ hf)⟩

theorem assignField_preserves (p : Point) (k : String) (v : JValue) (p2 : Point)
    (h : assignField p k v = some p2) :
    FieldsUnchanged (fun f => eqFold k f = false) p p2 := by
  unfold assignField at h
  by_cases h0 : isJNull v = true
  · rw [if_pos h0, Option.some.injEq] at h
    subst h
    exact fieldsUnchanged_refl _ _
  · rw [if_neg h0] at h
    by_cases h1 : eqFold k "tm" = true
    · rw [if_pos h1] at h
      rcases Option.map_eq_some'.mp h with ⟨x, hx, rfl⟩
      exact ⟨fun hf => absurd h1 (by rw [hf]; exact Bool.false_ne_true),
        fun hf => rfl,
        fun hf => rfl,
        fun hf => rfl,
        fun hf => rfl,
        fun hf => rfl,
        fun hf => rfl,
        fun hf => rfl,
        fun hf => rfl,
        fun hf => rfl,
        fun hf => rfl⟩
    · rw [if_neg h1] at h
      by_cases h2 : eqFold k "lo" = true
      · rw [if_pos h2] at h
        rcases Option.map_eq_some'.mp h with ⟨x, hx, rfl⟩
        exact ⟨fun hf => rfl,
          fun hf => absurd h2 (by rw [hf]; exact Bool.false_ne_true),
          fun hf => rfl,
          fun hf => rfl,
          fun hf => rfl,
          fun hf => rfl,
          fun hf => rfl,
          fun hf => rfl,
          fun hf => rfl,
          fun hf => rfl,
          fun hf => rfl⟩
      · rw [if_neg h2] at h
        by_cases h3 : eqFold k "la" = true
        · rw [if_pos h3] at h
          rcases Option.map_eq_some'.mp h with ⟨x, hx, rfl⟩
          exact ⟨fun hf => rfl,
            fun hf => rfl,
            fun hf => absurd h3 (by rw [hf]; exact Bool.false_ne_true),
            fun hf => rfl,
            fun hf => rfl,
            fun hf => rfl,
            fun hf => rfl,
            fun hf => rfl,
            fun hf => rfl,
            fun hf => rfl,
            fun hf => rfl⟩
        · rw [if_neg h3] at h
          by_cases h4 : eqFold k "th" = true
          · rw [if_pos h4] at h
            rcases Option.map_eq_some'.mp h with ⟨x, hx, rfl⟩
            exact ⟨fun hf => rfl,
              fun hf => rfl,
              fun hf => rfl,
              fun hf => absurd h4 (by rw [hf]; exact Bool.false_ne_true),
              fun hf => rfl,
              fun hf => rfl,
              fun hf => rfl,
              fun hf => rfl,
              fun hf => rfl,
              fun hf => rfl,
              fun hf => rfl⟩
          · rw [if_neg h4] at h
            by_cases h5 : eqFold k "sp" = true
            · rw [if_pos h5] at h
              rcases Option.map_eq_some'.mp h with ⟨x, hx, rfl⟩
              exact ⟨fun hf => rfl,
                fun hf => rfl,
                fun hf => rfl,
                fun hf => rfl,
                fun hf => absurd h5 (by rw [hf]; exact Bool.false_ne_true),
                fun hf => rfl,
                fun hf => rfl,
                fun hf => rfl,
                fun hf => rfl,
                fun hf => rfl,
                fun hf => rfl⟩
            · rw [if_neg h5] at h
              by_cases h6 : eqFold k "co" = true
              · rw [if_pos h6] at h
                rcases Option.map_eq_some'.mp h with ⟨x, hx, rfl⟩
                exact ⟨fun hf => rfl,
                  fun hf => rfl,
                  fun hf => rfl,
                  fun hf => rfl,
                  fun hf => rfl,
                  fun hf => absurd h6 (by rw [hf]; exact Bool.false_ne_true),
                  fun hf => rfl,
                  fun hf => rfl,
                  fun hf => rfl,
                  fun hf => rfl,
                  fun hf => rfl⟩
              · rw [if_neg h6] at h
                by_cases h7 : eqFold k "al" = true
                · rw [if_pos h7] at h
                  rcases Option.map_eq_some'.mp h with ⟨x, hx, rfl⟩
                  exact ⟨fun hf => rfl,
                    fun hf => rfl,
                    fun hf => rfl,
                    fun hf => rfl,
                    fun hf => rfl,
                    fun hf => rfl,
                    fun hf => absurd h7 (by rw [hf]; exact Bool.false_ne_true),
                    fun hf => rfl,
                    fun hf => rfl,
                    fun hf => rfl,
                    fun hf => rfl⟩
                · rw [if_neg h7] at h
                  by_cases h8 : eqFold k "he" = true
                  · rw [if_pos h8] at h
                    rcases Option.map_eq_some'.mp h with ⟨x, hx, rfl⟩
                    exact ⟨fun hf => rfl,
                      fun hf => rfl,
                      fun hf => rfl,
                      fun hf => rfl,
                      fun hf => rfl,
                      fun hf => rfl,
                      fun hf => rfl,
                      fun hf => absurd h8 (by rw [hf]; exact Bool.false_ne_true),
                      fun hf => rfl,
                      fun hf => rfl,
                      fun hf => rfl⟩
                  · rw [if_neg h8] at h
                    by_cases h9 : eqFold k "ds" = true
                    · rw [if_pos h9] at h
                      rcases Option.map_eq_some'.mp h with ⟨x, hx, rfl⟩
                      exact ⟨fun hf => rfl,
                        fun hf => rfl,
                        fun hf => rfl,
                        fun hf => rfl,
                        fun hf => rfl,
                        fun hf => rfl,
                        fun hf => rfl,
                        fun hf => rfl,
                        fun hf => absurd h9 (by rw [hf]; exact Bool.false_ne_true),
                        fun hf => rfl,
                        fun hf => rfl⟩
                    · rw [if_neg h9] at h
                      by_cases h10 : eqFold k "ms" = true
                      · rw [if_pos h10] at h
                        rcases Option.map_eq_some'.mp h with ⟨x, hx, rfl⟩
                        exact ⟨fun hf => rfl,
                          fun hf => rfl,
                          fun hf => rfl,
                          fun hf => rfl,
                          fun hf => rfl,
                          fun hf => rfl,
                          fun hf => rfl,
                          fun hf => rfl,
                          fun hf => rfl,
                          fun hf => absurd h10 (by rw [hf]; exact Bool.false_ne_true),
                          fun hf => rfl⟩
                      · rw [if_neg h10] at h
                        by_cases h11 : eqFold k "ow" = true
                        · rw [if_pos h11] at h
                          rcases Option.map_eq_some'.mp h with ⟨x, hx, rfl⟩
                          exact ⟨fun hf => rfl,
                            fun hf => rfl,
                            fun hf => rfl,
                            fun hf => rfl,
                            fun hf => rfl,
                            fun hf => rfl,
                            fun hf => rfl,
                            fun hf => rfl,
                            fun hf => rfl,
                            fun hf => rfl,
                            fun hf => absurd h11 (by rw [hf]; exact Bool.false_ne_true)⟩
                        · rw [if_neg h11] at h
                          rw [Option.some.injEq] at h
                          subst h
                          exact fieldsUnchanged_refl _ _

theorem decodePointFields_preserves (fs : List (String × JValue)) :
    ∀ (p0 pt : Point), decodePointFields p0 fs = some pt →
      FieldsUnchanged (fun f => keyAbsent fs f = true) p0 pt := by
  induction fs with
  | nil =>
    intro p0 pt h
    rw [decodePointFields, Option.some.injEq] at h
    subst h
    exact fieldsUnchanged_refl _ _
  | cons kv rest ih =>
    intro p0 pt h
    rw [decodePointFields] at h
    rcases ha : assignField p0 kv.1 kv.2 with _ | p2
    · rw [ha] at h
      cases h
    · rw [ha] at h
      have hcons : ∀ f, keyAbsent (kv :: rest) f = true →
          eqFold kv.1 f = false ∧ keyAbsent rest f = true := by
        intro f hf
        simpa [keyAbsent, List.all_cons, Bool.and_eq_true, Bool.not_eq_true'] using hf
      exact fieldsUnchanged_comp _ _ _ _
        (fieldsUnchanged_mono _ _ _ _ (assignField_preserves p0 kv.1 kv.2 p2 ha)
          (fun f hf => (hcons f hf).1))
        (fieldsUnchanged_mono _ _ _ _ (ih p2 pt h)
          (fun f hf => (hcons f hf).2))

theorem altitude_eq_ok (p : Point) (h : altOk p = true) :
    p.Altitude = Except.ok (altVal p) := by
  unfold Point.Altitude altVal
  by_cases hA : p.Al = ""
  · simp [hA]
  · rcases hv : goParseFloat p.Al with _ | v
    · exfalso
      simp [altOk, hA, hv] at h
    · simp [hA, hv]

theorem altitude_eq_error (p : Point) (h : altOk p = false) :
    p.Altitude = Except.error ("failed to parse altitude " ++ goQuote p.Al) := by
  unfold Point.Altitude
  rcases hv : goParseFloat p.Al with _ | v
  · have hA : ¬p.Al = "" := by
      intro hA
      simp [altOk, hA] at h
    simp [hA, hv]
  · exfalso
    simp [altOk, hv] at h

/-! ## Claim C4 -/

/-- C4: `TimestampWithOffset` denotes the same absolute instant as
`Timestamp` (equal `unix` fields), represented in a fixed-offset zone
of the given number of seconds, and at offset `0` it is identical to
the UTC representation returned by `Timestamp`. -/
theorem c4_timestamp_with_offset (p : Point) (s : Int) :
    (p.TimestampWithOffset s).unix = p.Timestamp.unix ∧
    (p.TimestampWithOffset s).offset = s ∧
    p.TimestampWithOffset 0 = p.Timestamp :=
  ⟨rfl, rfl, rfl⟩

/-! ## Claim C8 -/

/-- C8: `Altitude`, `Speed` and `Distance` each parse their raw string
field: the empty string yields `0` with no error, a string the float
parser accepts yields its parsed value, and a non-empty string the
float parser rejects yields an error naming the field and the
offending value. -/
theorem c8_field_parsers (p : Point) :
    ((p.Al = "" → p.Altitude = Except.ok 0) ∧
     (∀ v, goParseFloat p.Al = some v → p.Altitude = Except.ok v) ∧
     (p.Al ≠ "" → goParseFloat p.Al = none →
       p.Altitude = Except.error ("failed to parse altitude " ++ goQuote p.Al))) ∧
    ((p.Sp = "" → p.Speed = Except.ok 0) ∧
     (∀ v, goParseFloat p.Sp = some v → p.Speed = Except.ok v) ∧
     (p.Sp ≠ "" → goParseFloat p.Sp = none →
       p.Speed = Except.error ("failed to parse speed " ++ goQuote p.Sp))) ∧
    ((p.Ds = "" → p.Distance = Except.ok 0) ∧
     (∀ v, goParseFloat p.Ds = some v → p.Distance = Except.ok v) ∧
     (p.Ds ≠ "" → goParseFloat p.Ds = none →
       p.Distance = Except.error ("failed to parse distance " ++ goQuote p.Ds))) := by
  have hempty : goParseFloat "" = none := by decide
  refine ⟨⟨fun h => ?_, fun v hv => ?_, fun h hn => ?_⟩,
          ⟨fun h => ?_, fun v hv => ?_, fun h hn => ?_⟩,
          ⟨fun h => ?_, fun v hv => ?_, fun h hn => ?_⟩⟩
  · simp [Point.Altitude, h]
  · have h : ¬p.Al = "" := fun h => by rw [h, hempty] at hv; cases hv
    simp [Point.Altitude, h, hv]
  · simp [Point.Altitude, h, hn]
  · simp [Point.Speed, h]
  · have h : ¬p.Sp = "" := fun h => by rw [h, hempty] at hv; cases hv
    simp [Point.Speed, h, hv]
  · simp [Point.Speed, h, hn]
  · simp [Point.Distance, h]
  · have h : ¬p.Ds = "" := fun h => by rw [h, hempty] at hv; cases hv
    simp [Point.Distance, h, hv]
  · simp [Point.Distance, h, hn]

theorem c8_field_parsers_witness :
    ({ zeroPoint with Al := "25" } : Point).Altitude = Except.ok 25 ∧
    ({ zeroPoint with Sp := "x1" } : Point).Speed =
      Except.error ("failed to parse speed " ++ goQuote "x1") ∧
    ({ zeroPoint with Ds := "" } : Point).Distance = Except.ok 0 :=
  ⟨(c8_field_parsers { zeroPoint with Al := "25" }).1.2.1 25
      (by simp [goParseFloat, digitsToNat]),
   (c8_field_parsers { zeroPoint with Sp := "x1" }).2.1.2.2 (by decide) (by decide),
   (c8_field_parsers { zeroPoint with Ds := "" }).2.2.1 rfl⟩

/-! ## Claim C9 -/

/-- C9 (amended): decoding failure of the first JSON value yields the
decode error, a successfully decoded empty point list yields the
empty-input error (JSON `null` decodes to an empty list, so it takes
this branch), a non-empty decode is returned, the input `[]` always
fails with the empty-input error, and `Convert` independently rejects
an empty point list. -/
theorem c9_reader (s : String) :
    (decodeZweite s = none → ReadFrom s = Except.error "failed to parse JSON") ∧
    (decodeZweite s = some [] → ReadFrom s = Except.error "no data points found in JSON") ∧
    (∀ pts, decodeZweite s = some pts → pts ≠ [] → ReadFrom s = Except.ok pts) ∧
    ReadFrom "[]" = Except.error "no data points found in JSON" ∧
    (∀ (cfg : ConvConfig) (nm : String), Convert cfg [] nm = Except.error "no data points provided") := by
  refine ⟨fun h => ?_, fun h => ?_, fun pts h hne => ?_, by decide, fun cfg nm => rfl⟩
  · simp [ReadFrom, h]
  · simp [ReadFrom, h]
  · simp [ReadFrom, h, List.length_eq_zero, hne]

theorem c9_reader_witness :
    ReadFrom "xyz" = Except.error "failed to parse JSON" :=
  (c9_reader "xyz").1 (by decide)

/-- C9 counterexample: the input `null` is not a well-formed JSON array
matching the Point shape, yet reading it does not fail with the decode
error — it fails with the empty-input error (Go's decoder unmarshals
JSON `null` into a nil slice with no error). -/
theorem c9_counterexample :
    specIsWellFormedPointArray "null" = false ∧
    ReadFrom "null" = Except.error "no data points found in JSON" ∧
    "no data points found in JSON" ≠ "failed to parse JSON" :=
  ⟨by decide, by decide, by decide⟩

/-! ## Claim C10 -/

/-- C10: the reader accepts JSON objects that omit any or all Point
fields; every absent field (no key matching it, case-insensitively)
keeps its zero value, and in particular `[{}]` decodes to a single
all-zero Point with no error. -/
theorem c10_reader_defaults :
    ReadFrom "[{}]" = Except.ok [zeroPoint] ∧
    ∀ (fs : List (String × JValue)) (pt : Point),
      decodePointFields zeroPoint fs = some pt →
      (keyAbsent fs "tm" = true → pt.Tm = 0) ∧ (keyAbsent fs "lo" = true → pt.Lo = 0) ∧
      (keyAbsent fs "la" = true → pt.La = 0) ∧ (keyAbsent fs "th" = true → pt.Th = 0) ∧
      (keyAbsent fs "sp" = true → pt.Sp = "") ∧ (keyAbsent fs "co" = true → pt.Co = 0) ∧
      (keyAbsent fs "al" = true → pt.Al = "") ∧ (keyAbsent fs "he" = true → pt.He = 0) ∧
      (keyAbsent fs "ds" = true → pt.Ds = "") ∧ (keyAbsent fs "ms" = true → pt.Ms = 0) ∧
      (keyAbsent fs "ow" = true → pt.Ow = "") := by
  refine ⟨by decide, fun fs pt h => ?_⟩
  have hu := decodePointFields_preserves fs zeroPoint pt h
  exact ⟨hu.1, hu.2.1, hu.2.2.1, hu.2.2.2.1, hu.2.2.2.2.1, hu.2.2.2.2.2.1,
         hu.2.2.2.2.2.2.1, hu.2.2.2.2.2.2.2.1, hu.2.2.2.2.2.2.2.2.1,
         hu.2.2.2.2.2.2.2.2.2.1, hu.2.2.2.2.2.2.2.2.2.2⟩

theorem c10_reader_defaults_witness :
    ({ zeroPoint with Ow := "dev" } : Point).Tm = 0 ∧
    ReadFrom "[{}]" = Except.ok [zeroPoint] :=
  ⟨(c10_reader_defaults.2 [("ow", JValue.jstr "dev")]
      { zeroPoint with Ow := "dev" } (by decide)).1 (by decide),
   c10_reader_defaults.1⟩

/-! ## Claim C3 -/

theorem string_data_append (a b : String) : (a ++ b).data = a.data ++ b.data := by
  rcases a with ⟨da⟩
  rcases b with ⟨db⟩
  rfl

theorem goIsAbs_ne_empty (s : String) (h : goIsAbs s = true) : s ≠ "" := by
  intro he
  subst he
  exact Bool.noConfusion h

theorem goIsAbs_head (s : String) (h : goIsAbs s = true) :
    ∃ t, s.data = '/' :: t := by
  rcases hd : s.data with _ | ⟨c, t⟩
  · exfalso
    rw [goIsAbs, hd] at h
    exact Bool.noConfusion h
  · refine ⟨t, ?_⟩
    rw [goIsAbs, hd] at h
    have hc : c = '/' := of_decide_eq_true h
    subst hc
    rfl

theorem goIsAbs_slash_append (s : String) : goIsAbs ("/" ++ s) = true := by
  have hd : ("/" ++ s).data = '/' :: s.data := by
    rw [string_data_append]
    rfl
  rw [goIsAbs, hd]
  rfl

theorem goClean_ne_empty (p : String) : goClean p ≠ "" := by
  simp only [goClean]
  split_ifs with h1 h2 h3
  · decide
  · intro hc
    have hd := congrArg String.data hc
    rw [string_data_append] at hd
    exact List.noConfusion hd
  · decide
  · exact h3

theorem goIsAbs_goClean (p : String) (h : goIsAbs p = true) :
    goIsAbs (goClean p) = true := by
  have hne : p ≠ "" := goIsAbs_ne_empty p h
  simp only [goClean, if_neg hne, h, if_true]
  exact goIsAbs_slash_append _

theorem goIsAbs_goAbs (cwd x : String) (hc : goIsAbs cwd = true) (hx : x ≠ "") :
    goIsAbs (goAbs cwd x) = true := by
  unfold goAbs
  by_cases hax : goIsAbs x = true
  · rw [if_pos hax]
    exact goIsAbs_goClean x hax
  · rw [if_neg hax]
    have hcne : cwd ≠ "" := goIsAbs_ne_empty cwd hc
    unfold goJoin
    rw [if_neg (by simp [hcne]), if_neg hcne, if_neg hx]
    apply goIsAbs_goClean
    obtain ⟨t, ht⟩ := goIsAbs_head cwd hc
    have hslash : ("/" : String).data = ['/'] := rfl
    have hd : (cwd ++ "/" ++ x).data = '/' :: (t ++ '/' :: x.data) := by
      rw [string_data_append, string_data_append, ht, hslash]
      simp
    rw [goIsAbs, hd]
    rfl

/-- C3 (amended): `validateOutputPath` rejects the empty string;
rejects, with the path-traversal error, exactly the paths whose
lexically cleaned form contains the substring `..` anywhere (this also
rejects names that merely contain two consecutive dots, such as
`a..b`); and otherwise returns the absolute form of the cleaned path.
The claim's concrete examples are checked at working directory
`/cwd`. -/
theorem c3_validate_output_path (cwd path : String) (hcwd : goIsAbs cwd = true) :
    (validateOutputPath cwd "" = Except.error "output path is empty") ∧
    (path ≠ "" → containsDotDot (goClean path).data = true →
      validateOutputPath cwd path =
        Except.error ("path " ++ goQuote path ++ " contains invalid relative path components")) ∧
    (path ≠ "" → containsDotDot (goClean path).data = false →
      validateOutputPath cwd path = Except.ok (goAbs cwd (goClean path)) ∧
      goIsAbs (goAbs cwd (goClean path)) = true) ∧
    (validateOutputPath "/cwd" "../../../etc/passwd" =
      Except.error ("path " ++ goQuote "../../../etc/passwd" ++ " contains invalid relative path components")) ∧
    (validateOutputPath "/cwd" ".." =
      Except.error ("path " ++ goQuote ".." ++ " contains invalid relative path components")) ∧
    (validateOutputPath "/cwd" "output/../../etc" =
      Except.error ("path " ++ goQuote "output/../../etc" ++ " contains invalid relative path components")) ∧
    (validateOutputPath "/cwd" "." = Except.ok "/cwd") ∧
    (validateOutputPath "/cwd" "/tmp/output" = Except.ok "/tmp/output") ∧
    (validateOutputPath "/cwd" "output/gpx" = Except.ok "/cwd/output/gpx") ∧
    (validateOutputPath "/cwd" "./output/2024/october" = Except.ok "/cwd/output/2024/october") := by
  refine ⟨by simp [validateOutputPath], fun hne hdd => ?_, fun hne hdd => ?_,
    by decide, by decide, by decide, by decide, by decide, by decide, by decide⟩
  · simp [validateOutputPath, hne, hdd]
  · refine ⟨by simp [validateOutputPath, hne, hdd], ?_⟩
    exact goIsAbs_goAbs cwd (goClean path) hcwd (goClean_ne_empty path)

theorem c3_validate_output_path_witness :
    validateOutputPath "/work" "sub/dir" = Except.ok (goAbs "/work" (goClean "sub/dir")) ∧
    goIsAbs (goAbs "/work" (goClean "sub/dir")) = true :=
  (c3_validate_output_path "/work" "sub/dir" (by decide)).2.2.1 (by decide) (by decide)

/-- C3 counterexample: the cleaned form of `a..b` has no
parent-directory (`..`) component, yet `validateOutputPath` rejects it
with the path-traversal error, because the source checks for the
substring `..` rather than for a path component. -/
theorem c3_counterexample :
    specHasDotDotComponent (goClean "a..b") = false ∧
    validateOutputPath "/cwd" "a..b" =
      Except.error ("path " ++ goQuote "a..b" ++ " contains invalid relative path components") :=
  ⟨by decide, by decide⟩

/-! ## Claim C5 -/

/-- C5: with a non-empty point list, the auto-generated base filename
is the first point's instant shifted into the requested fixed-offset
zone, rendered `YYYYMMDD-HHMMSS` plus `.gpx` (joined onto the resolved
directory); the claim's three concrete filenames are checked for
timestamp `1609459200` at offsets `0`, `+32400` and `-18000` (with no
output directory, so the base name is the whole result). -/
theorem c5_generate_output_filename (cwd inputFile outputDir : String)
    (points : List Point) (p : Point) (rest : List Point) (tz : Int)
    (h : points = p :: rest) :
    (generateOutputFilename cwd inputFile outputDir points tz =
      match (if outputDir = "" then Except.ok (goDir inputFile)
             else match validateOutputPath cwd outputDir with
                  | Except.error e => Except.error ("invalid output directory: " ++ e)
                  | Except.ok d => Except.ok d : Except String String) with
      | Except.error e => Except.error e
      | Except.ok dir =>
        Except.ok (goJoin dir (goFormatYmdHms (p.TimestampWithOffset tz) ++ ".gpx"))) ∧
    generateOutputFilename "/cwd" "in.json" "" [{ zeroPoint with Tm := 1609459200 }] 0 =
      Except.ok "20210101-000000.gpx" ∧
    generateOutputFilename "/cwd" "in.json" "" [{ zeroPoint with Tm := 1609459200 }] 32400 =
      Except.ok "20210101-090000.gpx" ∧
    generateOutputFilename "/cwd" "in.json" "" [{ zeroPoint with Tm := 1609459200 }] (-18000) =
      Except.ok "20201231-190000.gpx" := by
  subst h
  refine ⟨?_, by decide, by decide, by decide⟩
  by_cases htz : tz = 0
  · subst htz
    rfl
  · simp only [generateOutputFilename, if_neg htz]

theorem c5_generate_output_filename_witness :
    generateOutputFilename "/cwd" "in.json" "" [{ zeroPoint with Tm := 1609459200 }] 32400 =
      Except.ok "20210101-090000.gpx" :=
  (c5_generate_output_filename "/cwd" "in.json" ""
    [{ zeroPoint with Tm := 1609459200 }] { zeroPoint with Tm := 1609459200 } [] 32400
    rfl).2.2.1

/-! ## Claim C6 -/

/-- C6: when a non-empty explicit output file is supplied, `Run`'s
observable behaviour is identical for every output-directory argument
(the directory is ignored entirely: never validated, never used for
auto-naming), and the only directory ever created is the parent
directory of the validated output file. -/
theorem c6_run_explicit_output (readResult : Except String (List Point))
    (cwd inputFile outputFile outputDir outputDir2 trackName : String) (tz : Int)
    (hof : outputFile ≠ "") :
    run readResult cwd inputFile outputFile outputDir trackName tz =
      run readResult cwd inputFile outputFile outputDir2 trackName tz ∧
    ∀ d ∈ (run readResult cwd inputFile outputFile outputDir trackName tz).dirsCreated,
      ∃ v, validateOutputPath cwd outputFile = Except.ok v ∧ d = goDir v := by
  constructor
  · simp only [run, if_neg hof]
  · intro d hd
    by_cases hif : inputFile = ""
    · simp [run, hif] at hd
    · rcases readResult with e | points
      · simp [run, hif] at hd
      · rcases hv : validateOutputPath cwd outputFile with e | v
        · simp [run, hif, hof, hv] at hd
        · rcases hc : Convert DefaultConfig points
              (if trackName = "" then "Track" else trackName) with e | g
          · simp [run, hif, hof, hv, hc] at hd
            exact ⟨v, rfl, hd⟩
          · simp [run, hif, hof, hv, hc] at hd
            exact ⟨v, rfl, hd⟩

theorem c6_run_explicit_output_witness :
    run (Except.ok [zeroPoint]) "/cwd" "in.json" "/out/x.gpx" "ignored" "T" 0 =
      run (Except.ok [zeroPoint]) "/cwd" "in.json" "/out/x.gpx" "other" "T" 0 :=
  (c6_run_explicit_output (Except.ok [zeroPoint]) "/cwd" "in.json" "/out/x.gpx"
    "ignored" "other" "T" 0 (by decide)).1

/-! ## Converter lemmas (shared by C1 and C7) -/

theorem altOk_of_altitude_ok (p : Point) (a : ℚ) (h : p.Altitude = Except.ok a) :
    altOk p = true := by
  unfold Point.Altitude at h
  by_cases hA : p.Al = ""
  · simp [altOk, hA]
  · rw [if_neg hA] at h
    rcases hv : goParseFloat p.Al with _ | v
    · rw [hv] at h
      cases h
    · simp [altOk, hv]

theorem mem_of_getLastQ (l : List Point) (a : Point) (h : l.getLast? = some a) :
    a ∈ l := by
  induction l with
  | nil => cases h
  | cons x xs ih =>
    rcases hxs : xs with _ | ⟨y, ys⟩
    · subst hxs
      simp only [List.getLast?_singleton, Option.some.injEq] at h
      subst h
      exact List.mem_cons_self _ _
    · subst hxs
      rw [List.getLast?_cons_cons] at h
      exact List.mem_cons_of_mem _ (ih h)

theorem buildTrkPts_eq_ok (pts : List Point) : ∀ i, (∀ q ∈ pts, altOk q = true) →
    buildTrkPts i pts = Except.ok (pts.map expectedTrkPt) := by
  induction pts with
  | nil => intro i _; rfl
  | cons p rest ih =>
    intro i h
    have hp := h p (List.mem_cons_self _ _)
    simp only [buildTrkPts, altitude_eq_ok p hp,
      ih (i + 1) (fun q hq => h q (List.mem_cons_of_mem _ hq))]
    rfl

theorem buildTrkPts_ok_all (pts : List Point) : ∀ (i : Nat) (l : List WptType),
    buildTrkPts i pts = Except.ok l → ∀ q ∈ pts, altOk q = true := by
  induction pts with
  | nil => intro i l _ q hq; cases hq
  | cons p rest ih =>
    intro i l h q hq
    rcases ha : p.Altitude with e | a
    · simp only [buildTrkPts, ha] at h
      exact Except.noConfusion h
    · rcases List.mem_cons.mp hq with rfl | hq2
      · exact altOk_of_altitude_ok q a ha
      · simp only [buildTrkPts, ha] at h
        rcases hr : buildTrkPts (i + 1) rest with e | l2
        · rw [hr] at h
          cases h
        · exact ih (i + 1) l2 hr q hq2

theorem addWaypoints_eq_ok (p lp : Point) (rest : List Point)
    (hl : (p :: rest).getLast? = some lp) (h1 : altOk p = true) (h2 : altOk lp = true) :
    addWaypoints (p :: rest) = Except.ok [namedWpt p "Start", namedWpt lp "Goal"] := by
  simp only [addWaypoints, List.head?_cons, hl]
  simp only [altitude_eq_ok p h1, altitude_eq_ok lp h2]
  rfl

theorem addWaypoints_error_start (p lp : Point) (rest : List Point)
    (hl : (p :: rest).getLast? = some lp) (h1 : altOk p = false) :
    ∃ e, addWaypoints (p :: rest) = Except.error e := by
  simp only [addWaypoints, List.head?_cons, hl]
  simp only [altitude_eq_error p h1]
  exact ⟨_, rfl⟩

theorem addWaypoints_error_goal (p lp : Point) (rest : List Point)
    (hl : (p :: rest).getLast? = some lp) (h1 : altOk p = true) (h2 : altOk lp = false) :
    ∃ e, addWaypoints (p :: rest) = Except.error e := by
  simp only [addWaypoints, List.head?_cons, hl]
  simp only [altitude_eq_ok p h1, altitude_eq_error lp h2]
  exact ⟨_, rfl⟩

theorem convert_ok_structure (cfg : ConvConfig) (p lp : Point) (rest : List Point)
    (trackName : String)
    (hl : (p :: rest).getLast? = some lp)
    (halt : ∀ q ∈ p :: rest, altOk q = true) :
    Convert cfg (p :: rest) trackName = Except.ok
      { Version := cfg.Version, Creator := cfg.Creator,
        Metadata := some { Name := if trackName = "" then "Track" else trackName,
                           Time := ⟨p.Tm, 0⟩ },
        Wpt := if cfg.IncludeWaypoint then [namedWpt p "Start", namedWpt lp "Goal"] else [],
        Trk := [ { Name := if trackName = "" then "Track" else trackName,
                   TrkSeg := [ { TrkPt := (p :: rest).map expectedTrkPt } ] } ] } := by
  have hp := halt p (List.mem_cons_self _ _)
  have hlp := halt lp (mem_of_getLastQ _ _ hl)
  have hbt := buildTrkPts_eq_ok (p :: rest) 0 halt
  have haw := addWaypoints_eq_ok p lp rest hl hp hlp
  rcases hw : cfg.IncludeWaypoint with _ | _
  · simp only [Convert, hw, Bool.false_eq_true, if_false, hbt]
    rfl
  · simp only [Convert, hw, if_true, haw, hbt]
    rfl

theorem convert_ok_inversion (cfg : ConvConfig) (points : List Point)
    (trackName : String) (g : GPX) (h : Convert cfg points trackName = Except.ok g) :
    ∀ q ∈ points, altOk q = true := by
  rcases points with _ | ⟨p, rest⟩
  · intro q hq
    cases hq
  · rcases hbt : buildTrkPts 0 (p :: rest) with e | tp
    · exfalso
      rcases hw : cfg.IncludeWaypoint with _ | _ <;>
        rcases haw : addWaypoints (p :: rest) with e2 | ws <;>
        simp [Convert, hw, haw, hbt] at h
    · exact buildTrkPts_ok_all (p :: rest) 0 tp hbt

/-! ## Claim C7 -/

/-- C7: with waypoint inclusion enabled (the default configuration),
every successful conversion of a non-empty point list carries exactly
two waypoints — `Start` with the first point's latitude, longitude,
parsed altitude and UTC timestamp, and `Goal` with the last point's; an
unparsable non-empty altitude at either endpoint makes the whole
conversion return an error (no document); with waypoint inclusion
disabled every successful conversion carries zero waypoints. -/
theorem c7_waypoints (points : List Point) (p lp : Point) (rest : List Point)
    (name : String) (h : points = p :: rest) (hlast : points.getLast? = some lp) :
    (∀ g, Convert DefaultConfig points name = Except.ok g →
        g.Wpt = [namedWpt p "Start", namedWpt lp "Goal"]) ∧
    (altOk p = false → ∃ e, Convert DefaultConfig points name = Except.error e) ∧
    (altOk lp = false → ∃ e, Convert DefaultConfig points name = Except.error e) ∧
    (∀ cfg : ConvConfig, cfg.IncludeWaypoint = false →
      ∀ g, Convert cfg points name = Except.ok g → g.Wpt = []) := by
  subst h
  refine ⟨fun g hg => ?_, fun h1 => ?_, fun h2 => ?_, fun cfg hwf g hg => ?_⟩
  · have halt := convert_ok_inversion DefaultConfig (p :: rest) name g hg
    have hstruct := convert_ok_structure DefaultConfig p lp rest name hlast halt
    rw [hg] at hstruct
    have hge := Except.ok.inj hstruct
    rw [hge]
    rfl
  · obtain ⟨e, he⟩ := addWaypoints_error_start p lp rest hlast h1
    refine ⟨"failed to add waypoints: " ++ e, ?_⟩
    simp [Convert, DefaultConfig, he]
  · by_cases hp : altOk p = true
    · obtain ⟨e, he⟩ := addWaypoints_error_goal p lp rest hlast hp h2
      refine ⟨"failed to add waypoints: " ++ e, ?_⟩
      simp [Convert, DefaultConfig, he]
    · obtain ⟨e, he⟩ := addWaypoints_error_start p lp rest hlast
        (Bool.not_eq_true _ ▸ hp)
      refine ⟨"failed to add waypoints: " ++ e, ?_⟩
      simp [Convert, DefaultConfig, he]
  · have halt := convert_ok_inversion cfg (p :: rest) name g hg
    have hstruct := convert_ok_structure cfg p lp rest name hlast halt
    rw [hg] at hstruct
    have hge := Except.ok.inj hstruct
    rw [hge]
    simp [hwf]

theorem c7_waypoints_witness :
    ∃ e, Convert DefaultConfig [{ zeroPoint with Al := "bad" }] "T" = Except.error e :=
  (c7_waypoints [{ zeroPoint with Al := "bad" }] { zeroPoint with Al := "bad" }
    { zeroPoint with Al := "bad" } [] "T" rfl rfl).2.1 (by decide)

/-! ## Claim C1 -/

theorem run_writes_docs_tz_invariant (readResult : Except String (List Point))
    (cwd inF oF od tn : String) (tz1 tz2 : Int) :
    (run readResult cwd inF oF od tn tz1).writes.map Prod.snd =
    (run readResult cwd inF oF od tn tz2).writes.map Prod.snd := by
  by_cases hif : inF = ""
  · simp [run, hif]
  · rcases readResult with e | points
    · simp [run, hif]
    · by_cases hof : oF = ""
      · rcases points with _ | ⟨p, rest⟩
        · simp [run, hif, hof, generateOutputFilename]
        · by_cases hod : od = ""
          · simp only [run, hif, hof, hod, generateOutputFilename, if_true, if_false,
              if_neg (fun hc => hif hc), if_pos rfl]
            rcases hc : Convert DefaultConfig (p :: rest)
                (if tn = "" then "Track" else tn) with e | g <;>
              simp [hc]
          · rcases hv : validateOutputPath cwd od with e | d
            · simp [run, hif, hof, hod, generateOutputFilename, hv]
            · simp only [run, hif, hof, hod, generateOutputFilename, hv, if_true, if_false,
                if_neg (fun hc => hif hc), if_neg (fun hc => hod hc), if_pos rfl]
              rcases hc : Convert DefaultConfig (p :: rest)
                  (if tn = "" then "Track" else tn) with e | g <;>
                simp [hc]
      · simp [run, hif, hof]

/-- C1 (amended): for a non-empty point list whose altitude strings all
parse and any track name, `Convert` returns a document with exactly one
track — named with the track name, or with the default name `Track`
when the supplied name is empty — containing exactly one segment whose
track points are, in input order, exactly one per input point with that
point's latitude, longitude, parsed altitude and UTC timestamp; and the
GPX documents a run of the pipeline writes are identical for every
timezone offset passed to it. -/
theorem c1_convert_track (points : List Point) (p lp : Point) (rest : List Point)
    (trackName : String)
    (h : points = p :: rest) (hlast : points.getLast? = some lp)
    (halt : ∀ q ∈ points, altOk q = true) :
    Convert DefaultConfig points trackName = Except.ok
      { Version := "1.1", Creator := "zweg - ZweiteGPS to GPX Converter",
        Metadata := some { Name := if trackName = "" then "Track" else trackName,
                           Time := ⟨p.Tm, 0⟩ },
        Wpt := [namedWpt p "Start", namedWpt lp "Goal"],
        Trk := [ { Name := if trackName = "" then "Track" else trackName,
                   TrkSeg := [ { TrkPt := points.map expectedTrkPt } ] } ] } ∧
    ∀ (readResult : Except String (List Point)) (cwd inF oF od tn : String) (tz1 tz2 : Int),
      (run readResult cwd inF oF od tn tz1).writes.map Prod.snd =
      (run readResult cwd inF oF od tn tz2).writes.map Prod.snd := by
  subst h
  exact ⟨convert_ok_structure DefaultConfig p lp rest trackName hlast halt,
    fun readResult cwd inF oF od tn tz1 tz2 =>
      run_writes_docs_tz_invariant readResult cwd inF oF od tn tz1 tz2⟩

theorem c1_convert_track_witness :
    Convert DefaultConfig [{ zeroPoint with Tm := 5 }] "T" = Except.ok
      { Version := "1.1", Creator := "zweg - ZweiteGPS to GPX Converter",
        Metadata := some { Name := if "T" = "" then "Track" else "T",
                           Time := ⟨5, 0⟩ },
        Wpt := [namedWpt { zeroPoint with Tm := 5 } "Start",
                namedWpt { zeroPoint with Tm := 5 } "Goal"],
        Trk := [ { Name := if "T" = "" then "Track" else "T",
                   TrkSeg := [ { TrkPt :=
                     [({ zeroPoint with Tm := 5 } : Point)].map expectedTrkPt } ] } ] } ∧
    (run (Except.ok [zeroPoint]) "/cwd" "in.json" "" "" "T" 0).writes.map Prod.snd =
      (run (Except.ok [zeroPoint]) "/cwd" "in.json" "" "" "T" 32400).writes.map Prod.snd :=
  ⟨(c1_convert_track [{ zeroPoint with Tm := 5 }] { zeroPoint with Tm := 5 }
      { zeroPoint with Tm := 5 } [] "T" rfl rfl (by decide)).1,
   (c1_convert_track [{ zeroPoint with Tm := 5 }] { zeroPoint with Tm := 5 }
      { zeroPoint with Tm := 5 } [] "T" rfl rfl (by decide)).2
     (Except.ok [zeroPoint]) "/cwd" "in.json" "" "" "T" 0 32400⟩

/-- C1 counterexample: at the empty track name — an instance of "every
track name" — the produced track is named `Track`, not the supplied
(empty) track name, so the claim as stated fails. -/
theorem c1_counterexample :
    (Convert DefaultConfig [zeroPoint] "").map (fun g => g.Trk.map TrkType.Name) =
      Except.ok ["Track"] ∧ "Track" ≠ "" :=
  ⟨by decide, by decide⟩

/-! ## Claim C2 lemmas -/

theorem atoi2_eq (a b : Char) : goAtoi (String.mk [a, b]) = atoi2 a b := by
  have hd : (String.mk [a, b]).data = [a, b] := rfl
  have hplus : Char.isDigit '+' = false := rfl
  have hminus : Char.isDigit '-' = false := rfl
  by_cases hap : a = '+'
  · subst hap
    by_cases hb : Char.isDigit b <;>
      simp [goAtoi, atoi2, hb, hplus, digitsToNat, digitVal]
  · by_cases ham : a = '-'
    · subst ham
      by_cases hb : Char.isDigit b <;>
        simp [goAtoi, atoi2, hb, hminus, digitsToNat, digitVal]
    · by_cases ha : Char.isDigit a <;> by_cases hb : Char.isDigit b <;>
        simp [goAtoi, atoi2, hap, ham, ha, hb, digitsToNat, digitVal]

theorem atoi2_ne_colon (a b : Char) (v : Int) (h : atoi2 a b = some v) :
    a ≠ ':' ∧ b ≠ ':' := by
  unfold atoi2 at h
  split_ifs at h with h1 h2 h3
  · exact ⟨fun hc => by subst hc; exact Bool.noConfusion h1.1,
           fun hc => by subst hc; exact Bool.noConfusion h1.2⟩
  · exact ⟨fun hc => by rw [hc] at h2; exact absurd h2.1 (by decide),
           fun hc => by subst hc; exact Bool.noConfusion h2.2⟩
  · exact ⟨fun hc => by rw [hc] at h3; exact absurd h3.1 (by decide),
           fun hc => by subst hc; exact Bool.noConfusion h3.2⟩

theorem splitOnColon_ne_nil (cs : List Char) : splitOnColon cs ≠ [] := by
  induction cs with
  | nil => simp [splitOnColon]
  | cons c rest ih =>
    simp only [splitOnColon]
    by_cases hc : c = ':'
    · simp [hc]
    · rw [if_neg hc]
      rcases h : splitOnColon rest with _ | ⟨p, ps⟩ <;> simp

theorem splitOnColon_single (cs : List Char) : ∀ p, splitOnColon cs = [p] →
    cs = p ∧ containsColon cs = false := by
  induction cs with
  | nil =>
    intro p h
    simp only [splitOnColon, List.cons.injEq] at h
    exact ⟨h.1.symm ▸ rfl, rfl⟩
  | cons c rest ih =>
    intro p h
    simp only [splitOnColon] at h
    by_cases hc : c = ':'
    · rw [if_pos hc] at h
      rw [List.cons.injEq] at h
      exact absurd h.2 (splitOnColon_ne_nil rest)
    · rw [if_neg hc] at h
      rcases hr : splitOnColon rest with _ | ⟨q, qs⟩
      · exact absurd hr (splitOnColon_ne_nil rest)
      · rw [hr, List.cons.injEq] at h
        obtain ⟨hq, hqs⟩ := h
        subst hqs
        obtain ⟨h1, h2⟩ := ih q (by rw [hr])
        subst h1
        refine ⟨by rw [← hq], ?_⟩
        simp only [containsColon, if_neg hc]
        exact h2

theorem splitOnColon_pair (cs : List Char) : ∀ p0 p1, splitOnColon cs = [p0, p1] →
    cs = p0 ++ ':' :: p1 ∧ containsColon p0 = false ∧ containsColon p1 = false := by
  induction cs with
  | nil =>
    intro p0 p1 h
    simp [splitOnColon] at h
  | cons c rest ih =>
    intro p0 p1 h
    simp only [splitOnColon] at h
    by_cases hc : c = ':'
    · rw [if_pos hc] at h
      rw [List.cons.injEq] at h
      obtain ⟨hp0, hrest⟩ := h
      obtain ⟨hr, hnc⟩ := splitOnColon_single rest p1 hrest
      subst hc
      subst hr
      refine ⟨by rw [← hp0]; rfl, ?_, hnc⟩
      rw [← hp0]
      rfl
    · rw [if_neg hc] at h
      rcases hr : splitOnColon rest with _ | ⟨q, qs⟩
      · exact absurd hr (splitOnColon_ne_nil rest)
      · rw [hr, List.cons.injEq] at h
        obtain ⟨hq, hqs⟩ := h
        obtain ⟨hrs, hq0, hq1⟩ := ih q p1 (by rw [hr, hqs])
        refine ⟨by rw [← hq, hrs]; rfl, ?_, hq1⟩
        rw [← hq]
        simp only [containsColon, if_neg hc]
        exact hq0

theorem splitOnColon_no_colon (cs : List Char) (h : containsColon cs = false) :
    splitOnColon cs = [cs] := by
  induction cs with
  | nil => rfl
  | cons c rest ih =>
    simp only [containsColon] at h
    by_cases hc : c = ':'
    · rw [if_pos hc] at h
      exact Bool.noConfusion h
    · rw [if_neg hc] at h
      simp only [splitOnColon, if_neg hc, ih h]

theorem splitOnColon_append (xs ys : List Char) (h : containsColon xs = false) :
    splitOnColon (xs ++ ':' :: ys) = xs :: splitOnColon ys := by
  induction xs with
  | nil => simp [splitOnColon]
  | cons c rest ih =>
    simp only [containsColon] at h
    by_cases hc : c = ':'
    · rw [if_pos hc] at h
      exact Bool.noConfusion h
    · rw [if_neg hc] at h
      simp only [List.cons_append, splitOnColon, if_neg hc, List.append_eq]
      rw [ih h]

theorem containsColon_mem (cs : List Char) (h : ':' ∈ cs) : containsColon cs = true := by
  induction cs with
  | nil => cases h
  | cons c rest ih =>
    simp only [containsColon]
    by_cases hc : c = ':'
    · rw [if_pos hc]
    · rw [if_neg hc]
      rcases List.mem_cons.mp h with heq | hmem
      · exact absurd heq.symm hc
      · exact ih hmem

theorem containsColon_two (a b : Char) (ha : a ≠ ':') (hb : b ≠ ':') :
    containsColon [a, b] = false := by
  simp [containsColon, ha, hb]

theorem tzRangeChecks_iff (off : String) (sign h m n : Int) :
    tzRangeChecks off sign h m = Except.ok n ↔ tzRangeSpec sign h m = some n := by
  simp only [tzRangeChecks, tzRangeSpec]
  split_ifs with h1 h2 h3 h4 h5 <;>
    first
      | (simp; omega)
      | simp
      | (exfalso; omega)

theorem tzBodySpec_shape (sign : Int) (body : List Char) (v : Int)
    (h : tzBodySpec sign body = some v) :
    (∃ a b c d hh mm, body = [a, b, ':', c, d] ∧ atoi2 a b = some hh ∧
      atoi2 c d = some mm ∧ tzRangeSpec sign hh mm = some v) ∨
    (∃ a b c d hh mm, body = [a, b, c, d] ∧ atoi2 a b = some hh ∧
      atoi2 c d = some mm ∧ tzRangeSpec sign hh mm = some v) := by
  unfold tzBodySpec at h
  split at h
  · rename_i a b c d
    rcases hab : atoi2 a b with _ | hh <;> rw [hab] at h
    · exact Option.noConfusion h
    · rcases hcd : atoi2 c d with _ | mm <;> rw [hcd] at h
      · exact Option.noConfusion h
      · exact Or.inl ⟨a, b, c, d, hh, mm, rfl, hab, hcd, h⟩
  · rename_i a b c d
    rcases hab : atoi2 a b with _ | hh <;> rw [hab] at h
    · exact Option.noConfusion h
    · rcases hcd : atoi2 c d with _ | mm <;> rw [hcd] at h
      · exact Option.noConfusion h
      · exact Or.inr ⟨a, b, c, d, hh, mm, rfl, hab, hcd, h⟩
  · exact Option.noConfusion h

theorem parseTzBody_iff (sign : Int) (body : List Char) (n : Int) :
    parseTzBody sign (String.mk body) = Except.ok n ↔ tzBodySpec sign body = some n := by
  have hdata : (String.mk body).data = body := rfl
  by_cases hc : containsColon body = true
  · rw [parseTzBody, hdata, if_pos hc]
    rcases hsp : splitOnColon body with _ | ⟨p0, ps⟩
    · exact absurd hsp (splitOnColon_ne_nil body)
    · rcases ps with _ | ⟨p1, ps2⟩
      · obtain ⟨_, hnc⟩ := splitOnColon_single body p0 hsp
        rw [hnc] at hc
        exact absurd hc (by simp)
      · rcases ps2 with _ | ⟨p2, ps3⟩
        · obtain ⟨hbody, hnc0, hnc1⟩ := splitOnColon_pair body p0 p1 hsp
          by_cases hlen : p0.length = 2 ∧ p1.length = 2
          · obtain ⟨a, b, hp0⟩ := List.length_eq_two.mp hlen.1
            obtain ⟨c, d, hp1⟩ := List.length_eq_two.mp hlen.2
            subst hp0
            subst hp1
            subst hbody
            simp only [hsp]
            rw [if_neg (by simp)]
            rw [(atoi2_eq a b :
              goAtoi (String.mk [a, b]) = atoi2 a b)]
            rw [(atoi2_eq c d :
              goAtoi (String.mk [c, d]) = atoi2 c d)]
            have hbl : ([a, b] ++ ':' :: [c, d] : List Char) = [a, b, ':', c, d] := rfl
            rw [hbl]
            simp only [tzBodySpec]
            rcases hab : atoi2 a b with _ | hh <;> simp only [hab]
            · simp
            · rcases hcd : atoi2 c d with _ | mm <;> simp only [hcd]
              · simp
              · exact tzRangeChecks_iff _ sign hh mm n
          · simp only [hsp]
            rw [if_pos (by omega)]
            refine iff_of_false (fun h => Except.noConfusion h) (fun h => ?_)
            rcases tzBodySpec_shape sign body n h with
              ⟨a, b, c, d, hh, mm, hsh, hab, hcd, _⟩ | ⟨a, b, c, d, hh, mm, hsh, hab, hcd, _⟩
            · obtain ⟨ha, hb⟩ := atoi2_ne_colon a b hh hab
              obtain ⟨hc2, hd⟩ := atoi2_ne_colon c d mm hcd
              have hcalc : splitOnColon [a, b, ':', c, d] = [[a, b], [c, d]] := by
                have happ := splitOnColon_append [a, b] [c, d] (containsColon_two a b ha hb)
                rw [show ([a, b] ++ ':' :: [c, d] : List Char) = [a, b, ':', c, d] from rfl]
                  at happ
                rw [happ, splitOnColon_no_colon [c, d] (containsColon_two c d hc2 hd)]
              rw [hsh, hcalc] at hsp
              rw [List.cons.injEq, List.cons.injEq] at hsp
              obtain ⟨e1, e2, _⟩ := hsp
              exact hlen ⟨by rw [← e1]; rfl, by rw [← e2]; rfl⟩
            · obtain ⟨ha, hb⟩ := atoi2_ne_colon a b hh hab
              obtain ⟨hc2, hd⟩ := atoi2_ne_colon c d mm hcd
              rw [hsh] at hc
              have hfl : containsColon [a, b, c, d] = false := by
                simp [containsColon, ha, hb, hc2, hd]
              rw [hfl] at hc
              exact Bool.noConfusion hc
        · simp only [hsp]
          refine iff_of_false (fun h => Except.noConfusion h) (fun h => ?_)
          rcases tzBodySpec_shape sign body n h with
            ⟨a, b, c, d, hh, mm, hsh, hab, hcd, _⟩ | ⟨a, b, c, d, hh, mm, hsh, hab, hcd, _⟩
          · obtain ⟨ha, hb⟩ := atoi2_ne_colon a b hh hab
            obtain ⟨hc2, hd⟩ := atoi2_ne_colon c d mm hcd
            have hcalc : splitOnColon [a, b, ':', c, d] = [[a, b], [c, d]] := by
              have happ := splitOnColon_append [a, b] [c, d] (containsColon_two a b ha hb)
              rw [show ([a, b] ++ ':' :: [c, d] : List Char) = [a, b, ':', c, d] from rfl]
                at happ
              rw [happ, splitOnColon_no_colon [c, d] (containsColon_two c d hc2 hd)]
            rw [hsh, hcalc] at hsp
            simp at hsp
          · obtain ⟨ha, hb⟩ := atoi2_ne_colon a b hh hab
            obtain ⟨hc2, hd⟩ := atoi2_ne_colon c d mm hcd
            rw [hsh] at hc
            have hfl : containsColon [a, b, c, d] = false := by
              simp [containsColon, ha, hb, hc2, hd]
            rw [hfl] at hc
            exact Bool.noConfusion hc
  · rw [parseTzBody, hdata, if_neg hc]
    have hcf : containsColon body = false := by
      rwa [Bool.not_eq_true] at hc
    by_cases hlen : body.length = 4
    · obtain ⟨a, b, c, d, hsh⟩ : ∃ a b c d, body = [a, b, c, d] := by
        rcases body with _ | ⟨a, body⟩
        · simp at hlen
        · rcases body with _ | ⟨b, body⟩
          · simp at hlen
          · rcases body with _ | ⟨c, body⟩
            · simp at hlen
            · rcases body with _ | ⟨d, body⟩
              · simp at hlen
              · rcases body with _ | ⟨e, body⟩
                · exact ⟨a, b, c, d, rfl⟩
                · simp at hlen
      subst hsh
      rw [if_neg (fun hne => hne rfl)]
      have ht : List.take 2 ([a, b, c, d] : List Char) = [a, b] := rfl
      have hdr : List.drop 2 ([a, b, c, d] : List Char) = [c, d] := rfl
      rw [ht, hdr]
      rw [(atoi2_eq a b : goAtoi (String.mk [a, b]) = atoi2 a b)]
      rw [(atoi2_eq c d : goAtoi (String.mk [c, d]) = atoi2 c d)]
      simp only [tzBodySpec]
      rcases hab : atoi2 a b with _ | hh <;> simp only [hab]
      · simp
      · rcases hcd : atoi2 c d with _ | mm <;> simp only [hcd]
        · simp
        · exact tzRangeChecks_iff _ sign hh mm n
    · have hlen2 : (String.mk body).length ≠ 4 := hlen
      rw [if_pos hlen2]
      refine iff_of_false (fun h => Except.noConfusion h) (fun h => ?_)
      rcases tzBodySpec_shape sign body n h with
        ⟨a, b, c, d, hh, mm, hsh, hab, hcd, _⟩ | ⟨a, b, c, d, hh, mm, hsh, hab, hcd, _⟩
      · rw [hsh] at hcf
        have htrue : containsColon [a, b, ':', c, d] = true :=
          containsColon_mem _ (by simp)
        rw [htrue] at hcf
        exact Bool.noConfusion hcf
      · rw [hsh] at hlen
        exact hlen (by simp)

theorem tzAmendedSpec_inv (c0 : Char) (body : List Char) (n : Int)
    (h : tzAmendedSpec (String.mk (c0 :: body)) = some n) :
    (c0 = '+' ∧ tzBodySpec 1 body = some n) ∨
    (c0 = '-' ∧ tzBodySpec (-1) body = some n) := by
  simp only [tzAmendedSpec] at h
  split_ifs at h with h1 h2
  · exact Or.inl ⟨h1, h⟩
  · exact Or.inr ⟨h2, h⟩

theorem tzBodySpec_length (sign : Int) (body : List Char) (v : Int)
    (h : tzBodySpec sign body = some v) : body.length = 5 ∨ body.length = 4 := by
  rcases tzBodySpec_shape sign body v h with
    ⟨a, b, c, d, hh, mm, hsh, _, _, _⟩ | ⟨a, b, c, d, hh, mm, hsh, _, _, _⟩
  · exact Or.inl (by rw [hsh]; rfl)
  · exact Or.inr (by rw [hsh]; rfl)

theorem parseTz_sign_eval (c0 : Char) (body : List Char)
    (hne : (String.mk (c0 :: body) : String) ≠ "")
    (hlen : ¬(String.mk (c0 :: body)).length < 3) :
    ParseTimezoneOffset (String.mk (c0 :: body)) =
      (if c0 = '+' then parseTzBody 1 (String.mk body)
       else if c0 = '-' then parseTzBody (-1) (String.mk body)
       else Except.error ("timezone offset must start with + or -: " ++
         goQuote (String.mk (c0 :: body)) ++ " (expected ±HH:MM or ±HHMM format)")) := by
  rw [ParseTimezoneOffset, if_neg hne, if_neg hlen]

theorem tzAmendedSpec_eval (c0 : Char) (body : List Char) :
    tzAmendedSpec (String.mk (c0 :: body)) =
      (if c0 = '+' then tzBodySpec 1 body
       else if c0 = '-' then tzBodySpec (-1) body else none) := rfl

/-! ## Claim C2 -/

/-- C2 (amended): `ParseTimezoneOffset` returns
`sign * (hours * 3600 + minutes * 60)` exactly when the text is a
mandatory `+`/`-` sign followed by either two two-character components
separated by one colon, or four characters split into two
two-character components, where each component is anything Go's `Atoi`
accepts — two digits, or an embedded sign followed by one digit — and
the signed component values satisfy hours `0..14`, minutes `0..59`,
minutes `0` when hours is `14`, and signed total within
`-43200..50400`; every other input produces an error. -/
theorem c2_parse_timezone_offset (s : String) (n : Int) :
    ParseTimezoneOffset s = Except.ok n ↔ tzAmendedSpec s = some n := by
  rcases s with ⟨cs⟩
  rcases cs with _ | ⟨c0, body⟩
  · rw [ParseTimezoneOffset, if_pos (rfl : (String.mk [] : String) = "")]
    exact iff_of_false (fun h => Except.noConfusion h) (fun h => Option.noConfusion h)
  · have hne : (String.mk (c0 :: body) : String) ≠ "" := by
      intro h
      exact List.noConfusion (congrArg String.data h)
    by_cases hlen : (String.mk (c0 :: body)).length < 3
    · rw [ParseTimezoneOffset, if_neg hne, if_pos hlen]
      refine iff_of_false (fun h => Except.noConfusion h) (fun h => ?_)
      have hlen2 : body.length < 2 := by
        simp only [String.length, List.length_cons] at hlen
        omega
      rcases tzAmendedSpec_inv c0 body n h with ⟨_, hb⟩ | ⟨_, hb⟩ <;>
        rcases tzBodySpec_length _ body n hb with h5 | h4 <;> omega
    · rw [parseTz_sign_eval c0 body hne hlen, tzAmendedSpec_eval c0 body]
      by_cases hp : c0 = '+'
      · rw [if_pos hp, if_pos hp]
        exact parseTzBody_iff 1 body n
      · rw [if_neg hp, if_neg hp]
        by_cases hm : c0 = '-'
        · rw [if_pos hm, if_pos hm]
          exact parseTzBody_iff (-1) body n
        · rw [if_neg hm, if_neg hm]
          exact iff_of_false (fun h => Except.noConfusion h) (fun h => Option.noConfusion h)

theorem c2_parse_timezone_offset_witness :
    ParseTimezoneOffset "+09:30" = Except.ok 34200 :=
  (c2_parse_timezone_offset "+09:30" 34200).mpr (by decide)

/-- C2 counterexample: `"++9:00"` is not of the claimed form — after
the mandatory sign, `+9` is not two digits — yet `ParseTimezoneOffset`
accepts it and returns `32400`, because Go's `Atoi` tolerates a sign
inside the two-character component. -/
theorem c2_counterexample :
    tzClaimSpec "++9:00" = none ∧ ParseTimezoneOffset "++9:00" = Except.ok 32400 :=
  ⟨by decide, by decide⟩

end Zweg
